import Mathlib

/-!
# dcload-ip: the packet-processing core (`target-src/dcload/net.c`)

A shallow embedding of `process_pkt` and the functions it calls
(`process_mine`, `process_broadcast`, `process_icmp`, `process_udp`), followed by
theorems about them.

Conventions of the embedding.

* A buffer is a total map from byte offsets to bytes (`Mem`).  The receive buffer
  `pkt`, the transmit buffer `pkt_buf`, the adapter's `bb->mac` and the local
  arrays of the C functions are separate buffers; a C pointer into a buffer is
  the buffer together with an offset.
* The target is little-endian (the source compares the wire value 1 of a 16-bit
  field with the constant `0x0100`), so `rd16`/`wr16`/`rd32`/`wr32` are
  little-endian and `ntohs`/`htonl` swap bytes.
* The external collaborators (command handlers, the DHCP hook, `make_ether`, the
  two checksum routines and the command identifiers) live in other files; they
  are the fields of `Env`.  The functions of `net.c` are parametric in them.
* Every call of `bb->tx`, of `handle_dhcp_reply` and of a command handler made
  by `net.c` is logged as an `Event`, in call order.
-/

namespace Dcload

/-! ## Bytes and buffers -/

abbrev Byte := Fin 256

abbrev U32 := Fin 4294967296

abbrev Mem := Nat → Byte

/-- Truncation of a C integer value to `unsigned char`. -/
def byte (v : Nat) : Byte := ⟨v % 256, Nat.mod_lt _ (by decide)⟩

/-- A buffer of zero bytes (used for the initial contents of C locals, every byte
of which is written before it is read). -/
def zeroMem : Mem := fun _ => 0

/-- The buffer holding the bytes of `l` from offset 0 on, zero after them. -/
def ofList (l : List Nat) : Mem := fun i => byte (l.getD i 0)

def rd8 (m : Mem) (a : Nat) : Nat := (m a).val

def wr8 (m : Mem) (a v : Nat) : Mem := fun i => if i = a then byte v else m i

/-- Read of an `unsigned short` lvalue at offset `a` (little-endian target). -/
def rd16 (m : Mem) (a : Nat) : Nat := rd8 m a + 256 * rd8 m (a + 1)

/-- Store to an `unsigned short` lvalue at offset `a`; the value is truncated to
16 bits. -/
def wr16 (m : Mem) (a v : Nat) : Mem :=
  fun i => if i = a then byte v else if i = a + 1 then byte (v / 256) else m i

/-- Read of an `unsigned int` lvalue at offset `a` (little-endian target). -/
def rd32 (m : Mem) (a : Nat) : Nat :=
  rd8 m a + 256 * rd8 m (a + 1) + 65536 * rd8 m (a + 2) + 16777216 * rd8 m (a + 3)

/-- Store to an `unsigned int` lvalue at offset `a`; the value is truncated to
32 bits. -/
def wr32 (m : Mem) (a v : Nat) : Mem :=
  fun i =>
    if i = a then byte v
    else if i = a + 1 then byte (v / 256)
    else if i = a + 2 then byte (v / 65536)
    else if i = a + 3 then byte (v / 16777216)
    else m i

/-- The byte swap `ntohs` of a 16-bit value on the little-endian target. -/
def ntohs (x : Nat) : Nat := (x % 256) * 256 + x / 256 % 256

/-- The byte swap `htonl` of a 32-bit value on the little-endian target. -/
def htonl (x : Nat) : Nat :=
  (x % 256) * 16777216 + (x / 256 % 256) * 65536 + (x / 65536 % 256) * 256 + x / 16777216 % 256

/-- The first `len` bytes of a buffer: what `bb->tx(buf, len)` puts on the wire. -/
def frame (m : Mem) (len : Nat) : List Nat := (List.range len).map (rd8 m)

/-- Modelled from the spec: `memcpy_16bit(dst, src, n)` of `memfuncs.h`, which is
missing from the sources: the word-wise copy routine; it copies `n` 16-bit words,
that is `2 * n` bytes, from offset `s` of `src` to offset `d` of `dst`.  Every call
in `net.c` has disjoint source and destination. -/
def memcpy_16bit (dst : Mem) (d : Nat) (src : Mem) (s : Nat) (n : Nat) : Mem :=
  fun i => if d ≤ i ∧ i < d + 2 * n then src (s + (i - d)) else dst i

/-- Modelled from the spec: `memcmp_16bit_eq(a, b, n)` of `memfuncs.h`, which is
missing from the sources: the word-wise comparison routine; it returns 0 when the
`n` 16-bit words at the two places are equal and a nonzero value otherwise. -/
def memcmp_16bit_eq (a : Mem) (ao : Nat) (b : Mem) (bo : Nat) (n : Nat) : Nat :=
  if ∀ k, k < 2 * n → a (ao + k) = b (bo + k) then 0 else 1

/-- Modelled from the spec: `memcmp_32bit_eq(&x, ID, 4/4)` of `memfuncs.h`, which
is missing from the sources, on one 32-bit word: 0 when the word `x` equals the
word stored at `ID`, nonzero otherwise.  Both words are given by value. -/
def memcmp_32bit_eq (x id : Nat) : Nat := if x = id then 0 else 1

/-! ## Constants of `packet.h` and of `net.c` -/

/-- Modelled from the spec: `ETHER_H_LEN` of `packet.h` (missing): the Ethernet II
header is 6 + 6 + 2 bytes. -/
abbrev ETHER_H_LEN : Nat := 14

/-- Modelled from the spec: `ARP_H_LEN` of `packet.h` (missing): the ARP message
is 2 + 2 + 1 + 1 + 2 + 6 + 4 + 6 + 4 bytes. -/
abbrev ARP_H_LEN : Nat := 28

/-- Modelled from the spec: `IP_UDP_PROTOCOL` of `packet.h` (missing): the IPv4
protocol id of UDP. -/
abbrev IP_UDP_PROTOCOL : Nat := 17

/-- Modelled from the spec: `IP_ICMP_PROTOCOL` of `packet.h` (missing): the IPv4
protocol id of ICMP. -/
abbrev IP_ICMP_PROTOCOL : Nat := 1

/-- The broadcast address `broadcast[6]` of `net.c`. -/
def broadcast : Mem := ofList [0xff, 0xff, 0xff, 0xff, 0xff, 0xff]

/-! ## State, events and collaborators -/

/-- The eleven commands, in the order of the comparison chain of `process_udp`. -/
inductive Cmd
  | partbin | donebin | retval | loadbin | maple | pmcr
  | sendbinq | sendbin | execute | version | reboot
  deriving DecidableEq, Repr

/-- One call that `net.c` makes to a collaborator. -/
inductive Event
  /-- The call `bb->tx(buf, len)`: the `len` bytes handed to the adapter. -/
  | tx (bytes : List Nat)
  /-- The call `handle_dhcp_reply(mac, payload, len)`: the two pointers, as
  offsets into the receive buffer, and the length. -/
  | dhcp (mac : Nat) (payload : Nat) (len : Int)
  /-- A call of the handler of a command. -/
  | cmd (c : Cmd)
  deriving DecidableEq, Repr

/-- The memory that `net.c` and its collaborators share. -/
structure Store (X : Type) where
  /-- The receive buffer, the argument `pkt` of `process_pkt`. -/
  pkt : Mem
  /-- The transmit buffer `pkt_buf`. -/
  pkt_buf : Mem
  /-- The device MAC `bb->mac`. -/
  mac : Mem
  /-- The device IP `our_ip`, in host order; 0 while unknown. -/
  our_ip : U32
  /-- The keep-waiting flag `escape_loop`. -/
  escape_loop : Nat
  /-- Whatever else the collaborators own. -/
  ext : X

/-- The result of a run: the memory afterwards, the calls made, and whether the
run ended in the non-returning `cmd_reboot`. -/
structure Out (X : Type) where
  st : Store X
  events : List Event
  halted : Bool

/-- The collaborators of `net.c`, all defined in files that are missing from the
sources.  Pointers are passed as offsets into the receive buffer. -/
structure Env (X : Type) where
  /-- The routine `checksum(buf, count, odd)`: buffer and offset of `buf`, the
  `int` word count, the odd-byte flag. -/
  checksum : Mem → Nat → Int → Nat → Nat
  /-- The routine `checksum_udp(pseudo, data, count, odd)`: the buffer holding
  the pseudo header at offset 0, buffer and offset of `data`, the `int` word
  count, the odd-byte flag. -/
  checksum_udp : Mem → Mem → Nat → Int → Nat → Nat
  /-- The routine `make_ether(dest, src, ether)`: the receive buffer, the offsets
  of `dest` and `src` in it, and the transmit buffer, whose new contents it
  returns. -/
  make_ether : Mem → Nat → Nat → Mem → Mem
  /-- The hook `handle_dhcp_reply(mac, payload, len)`; it returns the memory it
  leaves and its result. -/
  handle_dhcp_reply : Nat → Nat → Int → Store X → Store X × Bool
  /-- The command handlers `cmd_partbin` .. `cmd_reboot`; the argument is the
  offset of the UDP header, from which the handler's pointer arguments derive. -/
  handler : Cmd → Nat → Store X → Store X
  /-- The operation code `DHCP_OP_BOOTREPLY` of `dhcp.h`. -/
  DHCP_OP_BOOTREPLY : Nat
  /-- The identifiers `CMD_PARTBIN` .. `CMD_REBOOT` of `commands.h`, each as the
  32-bit word its four characters form in memory. -/
  CMD : Cmd → Nat

/-- A run that only changed memory. -/
def ret {X : Type} (s : Store X) : Out X := ⟨s, [], false⟩

/-! ## `process_broadcast` -/

def process_broadcast {X : Type} (s : Store X) : Out X :=
  let pkt := s.pkt
  let ether_header := 0
  let arp_header := ETHER_H_LEN
  -- unsigned int ip = htonl(our_ip);
  let ip : Mem := wr32 zeroMem 0 (htonl s.our_ip.val)
  if rd8 pkt (ether_header + 13) ≠ 0x06 then ret s          -- type[1], ARP
  else if rd16 pkt (arp_header + 0) ≠ 0x0100 then ret s     -- hw_addr_space
  else if rd16 pkt (arp_header + 2) ≠ 0x0008 then ret s     -- proto_addr_space
  else if rd16 pkt (arp_header + 6) = 0x0100 then           -- opcode: arp request
    if s.our_ip.val = 0 then ret s
    else if memcmp_16bit_eq pkt (arp_header + 24) ip 0 (4 / 2) = 0 then
      -- memcpy_16bit(ether_header->dest, ether_header->src, 6/2);
      let pkt1 := memcpy_16bit pkt (ether_header + 0) pkt (ether_header + 6) (6 / 2)
      -- memcpy_16bit(ether_header->src, bb->mac, 6/2);
      let pkt2 := memcpy_16bit pkt1 (ether_header + 6) s.mac 0 (6 / 2)
      -- arp_header->opcode = 0x0200;
      let pkt3 := wr16 pkt2 (arp_header + 6) 0x0200
      -- memcpy_16bit(tmp, arp_header->hw_sender, 10/2);
      let tmp := memcpy_16bit zeroMem 0 pkt3 (arp_header + 8) (10 / 2)
      -- memcpy_16bit(arp_header->hw_sender, arp_header->hw_target, 10/2);
      let pkt4 := memcpy_16bit pkt3 (arp_header + 8) pkt3 (arp_header + 18) (10 / 2)
      -- memcpy_16bit(arp_header->hw_target, tmp, 10/2);
      let pkt5 := memcpy_16bit pkt4 (arp_header + 18) tmp 0 (10 / 2)
      -- memcpy_16bit(arp_header->hw_sender, bb->mac, 6/2);
      let pkt6 := memcpy_16bit pkt5 (arp_header + 8) s.mac 0 (6 / 2)
      -- bb->tx(pkt, ETHER_H_LEN + ARP_H_LEN);
      ⟨{ s with pkt := pkt6 }, [Event.tx (frame pkt6 (ETHER_H_LEN + ARP_H_LEN))], false⟩
    else ret s
  else ret s

/-! ## `process_icmp` -/

/-- The word count of the verification call of `process_icmp`:
`(ntohs(ip->length)+1)/2 - 2*(ip->version_ihl & 0x0f)`, in C `int` arithmetic. -/
def icmp_check_count (length version_ihl : Nat) : Int :=
  Int.tdiv ((length : Int) + 1) 2 - 2 * ((version_ihl &&& 0x0f : Nat) : Int)

/-- The word count of the generation call of `process_icmp`:
`ntohs(ip->length)/2 - 2*(ip->version_ihl & 0x0f)`, in C `int` arithmetic. -/
def icmp_reply_count (length version_ihl : Nat) : Int :=
  Int.tdiv (length : Int) 2 - 2 * ((version_ihl &&& 0x0f : Nat) : Int)

/-- The verification step of `process_icmp`, up to the comparison: the receive
buffer after `icmp->checksum = 0;` and
`icmp->checksum = checksum(icmp, (ntohs(ip->length)+1)/2 - 2*(ip->version_ihl & 0x0f), ntohs(ip->length)%2);`.
The step succeeds when the checksum field of the result holds the value the field
held before. -/
def icmp_check {X : Type} (env : Env X) (pkt : Mem) (ip icmp : Nat) : Mem :=
  let pkt1 := wr16 pkt (icmp + 2) 0
  wr16 pkt1 (icmp + 2)
    (env.checksum pkt1 icmp
      (icmp_check_count (ntohs (rd16 pkt1 (ip + 2))) (rd8 pkt1 (ip + 0)))
      (ntohs (rd16 pkt1 (ip + 2)) % 2))

/-- The reply that `process_icmp` builds in the receive buffer once the
verification step has succeeded (the statements between the comparison and the
call of `bb->tx`). -/
def icmp_reply {X : Type} (env : Env X) (pkt2 : Mem) (ether ip icmp : Nat) : Mem :=
  -- icmp->type = 0;
  let pkt3 := wr8 pkt2 (icmp + 0) 0
  -- memcpy_16bit(tmp, ether->dest, 6/2);
  let tmp := memcpy_16bit zeroMem 0 pkt3 (ether + 0) (6 / 2)
  -- memcpy_16bit(ether->dest, ether->src, 6/2);
  let pkt4 := memcpy_16bit pkt3 (ether + 0) pkt3 (ether + 6) (6 / 2)
  -- memcpy_16bit(ether->src, tmp, 6/2);
  let pkt5 := memcpy_16bit pkt4 (ether + 6) tmp 0 (6 / 2)
  -- memcpy_16bit(&i, &ip->src, 4/2);
  let i2 := memcpy_16bit zeroMem 0 pkt5 (ip + 12) (4 / 2)
  -- memcpy_16bit(&ip->src, &ip->dest, 4/2);
  let pkt6 := memcpy_16bit pkt5 (ip + 12) pkt5 (ip + 16) (4 / 2)
  -- memcpy_16bit(&ip->dest, &i, 4/2);
  let pkt7 := memcpy_16bit pkt6 (ip + 16) i2 0 (4 / 2)
  -- ip->checksum = 0;
  let pkt8 := wr16 pkt7 (ip + 10) 0
  -- ip->checksum = checksum(ip, 2*(ip->version_ihl & 0x0f), 0);
  let pkt9 := wr16 pkt8 (ip + 10)
    (env.checksum pkt8 ip (2 * ((rd8 pkt8 (ip + 0) &&& 0x0f : Nat) : Int)) 0)
  -- icmp->checksum = 0;
  let pkt10 := wr16 pkt9 (icmp + 2) 0
  -- icmp->checksum = checksum(icmp, ntohs(ip->length)/2 - 2*(ip->version_ihl & 0x0f),
  --                           ntohs(ip->length)%2);
  wr16 pkt10 (icmp + 2)
    (env.checksum pkt10 icmp
      (icmp_reply_count (ntohs (rd16 pkt10 (ip + 2))) (rd8 pkt10 (ip + 0)))
      (ntohs (rd16 pkt10 (ip + 2)) % 2))

def process_icmp {X : Type} (env : Env X) (s : Store X) (ether ip icmp : Nat) : Out X :=
  let pkt := s.pkt
  if rd8 pkt (icmp + 0) = 8 then                            -- icmp->type, echo request
    -- i = icmp->checksum; icmp->checksum = 0; icmp->checksum = checksum(..);
    let i := rd16 pkt (icmp + 2)
    let pkt2 := icmp_check env pkt ip icmp
    if i ≠ rd16 pkt2 (icmp + 2) then ret { s with pkt := pkt2 }
    else
      let pkt11 := icmp_reply env pkt2 ether ip icmp
      -- bb->tx(ether, ETHER_H_LEN + ntohs(ip->length));
      ⟨{ s with pkt := pkt11 },
        [Event.tx (frame pkt11 (ETHER_H_LEN + ntohs (rd16 pkt11 (ip + 2))))], false⟩
  else ret s

/-! ## `process_udp` -/

/-- One link of the comparison chain of `process_udp`:
`if ((pkt_match_id) && (!memcmp_32bit_eq(&pkt_match_id, CMD_X, 4/4))) { cmd_x(..); pkt_match_id = 0; }`.
The state of the chain is the run so far and the local `pkt_match_id`. -/
def cmd_step {X : Type} (env : Env X) (udp : Nat) (c : Cmd) (r : Out X × Nat) : Out X × Nat :=
  if r.2 ≠ 0 ∧ memcmp_32bit_eq r.2 (env.CMD c) = 0 then
    (⟨env.handler c udp r.1.st, r.1.events ++ [Event.cmd c], r.1.halted⟩, 0)
  else r

/-- The last link of the chain: `cmd_reboot()` does not return, and
`pkt_match_id` is not cleared. -/
def cmd_step_reboot {X : Type} (env : Env X) (udp : Nat) (r : Out X × Nat) : Out X × Nat :=
  if r.2 ≠ 0 ∧ memcmp_32bit_eq r.2 (env.CMD Cmd.reboot) = 0 then
    (⟨env.handler Cmd.reboot udp r.1.st, r.1.events ++ [Event.cmd Cmd.reboot], true⟩, r.2)
  else r

/-- The word count of the `checksum_udp` call of `process_udp`:
`(ntohs(udp->length) - 8)/2`, in C `int` arithmetic. -/
def udp_count (length : Nat) : Int := Int.tdiv ((length : Int) - 8) 2

/-- The pseudo header that `process_udp` builds at the start of the transmit
buffer (`pseudo = (ip_udp_pseudo_header_t *)pkt_buf`); the fields of the struct
are `src_ip` 0, `dest_ip` 4, `zero` 8, `protocol` 9, `udp_length` 10, `src_port` 12,
`dest_port` 14, `length` 16, `checksum` 18. -/
def udp_pseudo (pkt_buf pkt : Mem) (ip udp : Nat) : Mem :=
  let b1 := wr32 pkt_buf 0 (rd32 pkt (ip + 12))             -- pseudo->src_ip = ip->src;
  let b2 := wr32 b1 4 (rd32 pkt (ip + 16))                  -- pseudo->dest_ip = ip->dest;
  let b3 := wr8 b2 8 0                                      -- pseudo->zero = 0;
  let b4 := wr8 b3 9 (rd8 pkt (ip + 9))                     -- pseudo->protocol = ip->protocol;
  let b5 := wr16 b4 10 (rd16 pkt (udp + 4))                 -- pseudo->udp_length = udp->length;
  let b6 := wr16 b5 12 (rd16 pkt (udp + 0))                 -- pseudo->src_port = udp->src;
  let b7 := wr16 b6 14 (rd16 pkt (udp + 2))                 -- pseudo->dest_port = udp->dest;
  let b8 := wr16 b7 16 (rd16 pkt (udp + 4))                 -- pseudo->length = udp->length;
  wr16 b8 18 0                                              -- pseudo->checksum = 0;

/-- The value that `checksum_udp` returns for the datagram, as an
`unsigned short`: the checksum over the pseudo header (which repeats the UDP
header with a zero checksum field) and the payload. -/
def udp_computed {X : Type} (env : Env X) (s : Store X) (ip udp : Nat) : Nat :=
  env.checksum_udp (udp_pseudo s.pkt_buf s.pkt ip udp) s.pkt (udp + 8)
    (udp_count (ntohs (rd16 s.pkt (udp + 4)))) (ntohs (rd16 s.pkt (udp + 4)) % 2) % 65536

/-- The first part of `process_udp`, up to the comparison `i != udp->checksum`: the
memory it leaves and whether the datagram passed (`i == udp->checksum`). -/
def udp_validate {X : Type} (env : Env X) (s : Store X) (ip udp : Nat) : Store X × Bool :=
  let pkt := s.pkt
  let pseudo := udp_pseudo s.pkt_buf pkt ip udp
  -- if (udp->checksum != 0) i = checksum_udp(pseudo, udp->data,
  --        (ntohs(udp->length) - 8)/2, ntohs(udp->length)%2); else i = 0;
  let i : Nat := if rd16 pkt (udp + 6) ≠ 0 then udp_computed env s ip udp else 0
  -- if (udp->checksum == 0xffff) udp->checksum = 0;
  let pkt1 := if rd16 pkt (udp + 6) = 0xffff then wr16 pkt (udp + 6) 0 else pkt
  ({ s with pkt := pkt1, pkt_buf := pseudo }, decide (i = rd16 pkt1 (udp + 6)))

/-- The second part of `process_udp`, after the comparison: the DHCP hook or the
command chain. -/
def udp_dispatch {X : Type} (env : Env X) (s1 : Store X) (ether udp : Nat) : Out X :=
  if rd8 s1.pkt (udp + 8) = env.DHCP_OP_BOOTREPLY then      -- udp_pkt_data->op
    -- handle_dhcp_reply(ether->src, (dhcp_pkt_t*)&udp->data, ntohs(udp->length) - 8)
    let len : Int := (ntohs (rd16 s1.pkt (udp + 4)) : Int) - 8
    let r := env.handle_dhcp_reply (ether + 6) (udp + 8) len s1
    if r.2 = false then
      ⟨{ r.1 with escape_loop := 1 }, [Event.dhcp (ether + 6) (udp + 8) len], false⟩
    else ⟨r.1, [Event.dhcp (ether + 6) (udp + 8) len], false⟩
  else
    -- make_ether(ether->src, ether->dest, (ether_header_t *)pkt_buf);
    let s2 : Store X :=
      { s1 with pkt_buf := env.make_ether s1.pkt (ether + 6) (ether + 0) s1.pkt_buf }
    -- command = (command_t *)udp->data; unsigned int pkt_match_id = *(unsigned int*)command->id;
    let pkt_match_id := rd32 s1.pkt (udp + 8)
    let r0 : Out X × Nat := (ret s2, pkt_match_id)
    let r1 := cmd_step env udp Cmd.partbin r0
    let r2 := cmd_step env udp Cmd.donebin r1
    let r3 := cmd_step env udp Cmd.retval r2
    let r4 := cmd_step env udp Cmd.loadbin r3
    let r5 := cmd_step env udp Cmd.maple r4
    let r6 := cmd_step env udp Cmd.pmcr r5
    let r7 := cmd_step env udp Cmd.sendbinq r6
    let r8 := cmd_step env udp Cmd.sendbin r7
    let r9 := cmd_step env udp Cmd.execute r8
    let r10 := cmd_step env udp Cmd.version r9
    let r11 := cmd_step_reboot env udp r10
    r11.1

def process_udp {X : Type} (env : Env X) (s : Store X) (ether ip udp : Nat) : Out X :=
  let v := udp_validate env s ip udp
  -- if (i != udp->checksum) return;
  if v.2 = false then ret v.1
  else udp_dispatch env v.1 ether udp

/-! ## `process_mine` -/

/-- The verification step of `process_mine`, up to the comparison: the receive
buffer after `ip_header->checksum = 0;` and
`ip_header->checksum = checksum(ip_header, 2*(ip_header->version_ihl & 0x0f), 0);`.
The step succeeds when the checksum field of the result holds the value the field
held before. -/
def ip_check {X : Type} (env : Env X) (pkt : Mem) (ip : Nat) : Mem :=
  let pkt1 := wr16 pkt (ip + 10) 0
  wr16 pkt1 (ip + 10)
    (env.checksum pkt1 ip (2 * ((rd8 pkt1 (ip + 0) &&& 0x0f : Nat) : Int)) 0)

def process_mine {X : Type} (env : Env X) (s : Store X) : Out X :=
  let pkt := s.pkt
  let ether_header := 0
  let ip_header := ETHER_H_LEN
  if rd8 pkt (ether_header + 13) ≠ 0x00 then ret s          -- type[1]
  -- if (ntohs(ip_header->flags_frag_offset) & 0x3fff) return;
  else if ntohs (rd16 pkt (ip_header + 6)) &&& 0x3fff ≠ 0 then ret s
  else
    -- i = ip_header->checksum; ip_header->checksum = 0; ip_header->checksum = checksum(..);
    let i := rd16 pkt (ip_header + 10)
    let pkt2 := ip_check env pkt ip_header
    let s2 : Store X := { s with pkt := pkt2 }
    if i ≠ rd16 pkt2 (ip_header + 10) then ret s2
    else if rd8 pkt2 (ip_header + 9) = IP_UDP_PROTOCOL then
      process_udp env s2 ether_header ip_header
        (ETHER_H_LEN + 4 * (rd8 pkt2 (ip_header + 0) &&& 0x0f))
    else if rd8 pkt2 (ip_header + 9) = IP_ICMP_PROTOCOL then
      process_icmp env s2 ether_header ip_header
        (ETHER_H_LEN + 4 * (rd8 pkt2 (ip_header + 0) &&& 0x0f))
    else ret s2

/-! ## `process_pkt` -/

def process_pkt {X : Type} (env : Env X) (s : Store X) : Out X :=
  let pkt := s.pkt
  let ether_header := 0
  if rd8 pkt (ether_header + 12) ≠ 0x08 then ret s          -- type[0]
  else if memcmp_16bit_eq pkt (ether_header + 0) s.mac 0 (6 / 2) = 0 then process_mine env s
  else if memcmp_16bit_eq pkt (ether_header + 0) broadcast 0 (6 / 2) = 0 then process_broadcast s
  else ret s

/-! ## The checksum routines -/

/-- One step of the one's-complement sum: add a 16-bit word to the running sum
and fold the carry back in. -/
def oc_add (sum w : Nat) : Nat :=
  if sum + w ≥ 65536 then (sum + w) % 65536 + 1 else sum + w

/-- The one's-complement sum of `count` consecutive 16-bit words from offset `a`,
started at `sum`. -/
def oc_sum (m : Mem) : Nat → Nat → Nat → Nat
  | _, 0, sum => sum
  | a, n + 1, sum => oc_sum m (a + 2) n (oc_add sum (rd16 m a))

/-- Modelled from the spec: `checksum(buf, count, odd)` of `packet.c`, which is
missing from the sources: the Internet checksum, that is the complement of the
one's-complement sum of `count` 16-bit words with end-around carry folding; when
the odd-byte flag is set, the byte after the last word is summed as the high byte
(in network order) of a word padded with a zero byte.  On the little-endian target
that word is the byte's own value, and the words are read and the result stored in
the target's order, which gives the same bytes as summing big-endian words.  A
`count` that is not positive sums no word. -/
def checksum (m : Mem) (a : Nat) (count : Int) (odd : Nat) : Nat :=
  let sum := oc_sum m a count.toNat 0
  let sum := if odd ≠ 0 then oc_add sum (rd8 m (a + 2 * count.toNat)) else sum
  65535 - sum

/-- Modelled from the spec: `checksum_udp(pseudo, data, count, odd)` of
`packet.c`, which is missing from the sources: the same algorithm over two
regions, the pseudo header `src_ip .. checksum` that `process_udp` builds (ten
words) and then `count` words of `data` and, when the flag is set, its final odd
byte. -/
def checksum_udp (pseudo : Mem) (data : Mem) (d : Nat) (count : Int) (odd : Nat) : Nat :=
  let sum := oc_sum pseudo 0 10 0
  let sum := oc_sum data d count.toNat sum
  let sum := if odd ≠ 0 then oc_add sum (rd8 data (d + 2 * count.toNat)) else sum
  65535 - sum

/-- The collaborators with the checksum routines as the spec describes them; the
handlers and the DHCP hook of `e` are kept. -/
def withChecksum {X : Type} (e : Env X) : Env X :=
  { e with checksum := checksum, checksum_udp := checksum_udp }

/-! ## Readings of the wire format, used in the statements -/

/-- The big-endian (network order) value of the 16-bit field at offset `a`. -/
def be16 (m : Mem) (a : Nat) : Nat := 256 * rd8 m a + rd8 m (a + 1)

/-- The big-endian (network order) value of the 32-bit field at offset `a`. -/
def be32 (m : Mem) (a : Nat) : Nat :=
  16777216 * rd8 m a + 65536 * rd8 m (a + 1) + 256 * rd8 m (a + 2) + rd8 m (a + 3)

/-- The six bytes at offset `a` of `m` are the six bytes of the address `x`. -/
def mac_eq (m : Mem) (a : Nat) (x : Mem) : Prop := ∀ k, k < 6 → m (a + k) = x k

instance (m : Mem) (a : Nat) (x : Mem) : Decidable (mac_eq m a x) := by
  unfold mac_eq; infer_instance

/-- The header length field of the IPv4 header of the frame, in 32-bit words. -/
def ihl (pkt : Mem) : Nat := rd8 pkt 14 % 16

/-- The `n` bytes of `m` from offset `a` on. -/
def bytes (m : Mem) (a n : Nat) : List Nat := (List.range n).map (fun k => rd8 m (a + k))

/-- The frame in the receive buffer is an ARP request for the device's address:
broadcast destination, EtherType 0x0806, hardware address space 1 (Ethernet),
protocol address space 0x0800 (IPv4), opcode 1 (request), a known device IP, and
that IP as target IP. -/
def arp_request_for_us {X : Type} (s : Store X) : Prop :=
  mac_eq s.pkt 0 broadcast ∧ be16 s.pkt 12 = 0x0806 ∧ be16 s.pkt 14 = 1 ∧
  be16 s.pkt 16 = 0x0800 ∧ be16 s.pkt 20 = 1 ∧ s.our_ip.val ≠ 0 ∧ be32 s.pkt 38 = s.our_ip.val

instance {X : Type} (s : Store X) : Decidable (arp_request_for_us s) := by
  unfold arp_request_for_us; infer_instance

/-- The transmitted bytes `f` are an ARP reply: EtherType 0x0806 and opcode 2. -/
def is_arp_reply (f : List Nat) : Prop :=
  f.getD 12 0 = 0x08 ∧ f.getD 13 0 = 0x06 ∧ f.getD 20 0 = 0x00 ∧ f.getD 21 0 = 0x02

instance (f : List Nat) : Decidable (is_arp_reply f) := by
  unfold is_arp_reply; infer_instance

/-- The length in bytes of the ICMP message of the IPv4 packet in the buffer: the
IP total length minus four times the header length. -/
def icmp_len (pkt : Mem) : Nat := be16 pkt 16 - 4 * ihl pkt

/-- The stored ICMP checksum of the packet in the buffer is correct over the ICMP
message: it is the checksum, with the field zeroed, of the `icmp_len` bytes of the
message, that is of its full words and, when the length is odd, its last byte. -/
def icmp_checksum_correct {X : Type} (env : Env X) (pkt : Mem) : Prop :=
  rd16 pkt (14 + 4 * ihl pkt + 2)
    = env.checksum (wr16 pkt (14 + 4 * ihl pkt + 2) 0) (14 + 4 * ihl pkt)
        ((icmp_len pkt / 2 : Nat) : Int) (icmp_len pkt % 2) % 65536

instance {X : Type} (env : Env X) (pkt : Mem) : Decidable (icmp_checksum_correct env pkt) := by
  unfold icmp_checksum_correct; infer_instance

/-! ## A sample configuration and sample frames, for evaluating the functions -/

/-- The identifiers of dcload-ip as little-endian words: PBIN, DBIN, RETV, LBIN,
MAPL, PMCR, SBIQ, SBIN, EXEC, VERS, RBOT. -/
def sampleCMD : Cmd → Nat
  | .partbin => 0x4e494250
  | .donebin => 0x4e494244
  | .retval => 0x56544552
  | .loadbin => 0x4e49424c
  | .maple => 0x4c50414d
  | .pmcr => 0x52434d50
  | .sendbinq => 0x51494253
  | .sendbin => 0x4e494253
  | .execute => 0x43455845
  | .version => 0x53524556
  | .reboot => 0x544f4252

/-- Collaborators that leave memory alone: the DHCP hook answers `relevant`, and
`make_ether` writes the two addresses and the IPv4 EtherType. -/
def sampleEnv (relevant : Bool) : Env Unit where
  checksum := checksum
  checksum_udp := checksum_udp
  make_ether := fun pkt dest src buf =>
    wr8 (wr8 (memcpy_16bit (memcpy_16bit buf 0 pkt dest 3) 6 pkt src 3) 12 0x08) 13 0x00
  handle_dhcp_reply := fun _ _ _ s => (s, relevant)
  handler := fun _ _ s => s
  DHCP_OP_BOOTREPLY := 2
  CMD := sampleCMD

/-- A device with MAC 02:00:00:00:00:01 and the given IP that has `bytes` in its
receive buffer. -/
def sampleStore (ip : U32) (bytes : List Nat) : Store Unit where
  pkt := ofList bytes
  pkt_buf := zeroMem
  mac := ofList [0x02, 0x00, 0x00, 0x00, 0x00, 0x01]
  our_ip := ip
  escape_loop := 0
  ext := ()

/-- An ARP request for 192.168.0.9 from 02:00:00:00:00:09 at 192.168.0.1, followed
in the buffer by two bytes that are not part of it. -/
def arpRequest : List Nat :=
  [0xff, 0xff, 0xff, 0xff, 0xff, 0xff, 0x02, 0x00, 0x00, 0x00, 0x00, 0x09, 0x08, 0x06,
   0x00, 0x01, 0x08, 0x00, 0x06, 0x04, 0x00, 0x01,
   0x02, 0x00, 0x00, 0x00, 0x00, 0x09, 192, 168, 0, 1,
   0x00, 0x00, 0x00, 0x00, 0x00, 0x00, 192, 168, 0, 9, 0xaa, 0xbb]

/-- The device address 192.168.0.9 in host order. -/
def sampleIp : U32 := 0xc0a80009

/-- The sample device at 192.168.0.9 holding the ARP request. -/
def arpStore : Store Unit := sampleStore sampleIp arpRequest

/-- The start of an IPv4 frame to the sample device with the more-fragments
flag set. -/
def fragmentFrame : List Nat :=
  [0x02, 0x00, 0x00, 0x00, 0x00, 0x01, 0x02, 0x00, 0x00, 0x00, 0x00, 0x09, 0x08, 0x00,
   0x45, 0x00, 0x00, 0x1c, 0x00, 0x01, 0x20, 0x00, 0x40, 0x01]

/-- An echo request of 60 bytes to the sample device: an ICMP message of 26 bytes
with a correct checksum.  The four bytes after it in the buffer are not part of
the packet. -/
def echoEven : List Nat :=
  [0x02, 0x00, 0x00, 0x00, 0x00, 0x01, 0x02, 0x00, 0x00, 0x00, 0x00, 0x09, 0x08, 0x00,
   0x45, 0x00, 0x00, 0x2e, 0x00, 0x01, 0x00, 0x00, 0x40, 0x01, 0xf9, 0x73, 0xc0, 0xa8,
   0x00, 0x01, 0xc0, 0xa8, 0x00, 0x09, 0x08, 0x00, 0x43, 0x40, 0x00, 0x01, 0x00, 0x01,
   0x61, 0x62, 0x63, 0x64, 0x65, 0x66, 0x67, 0x68, 0x69, 0x6a, 0x6b, 0x6c, 0x6d, 0x6e,
   0x6f, 0x70, 0x71, 0x72, 0xde, 0xad, 0xbe, 0xef]

/-- The sample device holding `echoEven`. -/
def echoEvenStore : Store Unit := sampleStore sampleIp echoEven

/-- An echo request of 61 bytes to the sample device: an ICMP message of 27 bytes
whose checksum is correct over these 27 bytes.  The four bytes after it in the
buffer are not part of the packet. -/
def echoOdd : List Nat :=
  [0x02, 0x00, 0x00, 0x00, 0x00, 0x01, 0x02, 0x00, 0x00, 0x00, 0x00, 0x09, 0x08, 0x00,
   0x45, 0x00, 0x00, 0x2f, 0x00, 0x01, 0x00, 0x00, 0x40, 0x01, 0xf9, 0x72, 0xc0, 0xa8,
   0x00, 0x01, 0xc0, 0xa8, 0x00, 0x09, 0x08, 0x00, 0xd0, 0x3f, 0x00, 0x01, 0x00, 0x01,
   0x61, 0x62, 0x63, 0x64, 0x65, 0x66, 0x67, 0x68, 0x69, 0x6a, 0x6b, 0x6c, 0x6d, 0x6e,
   0x6f, 0x70, 0x71, 0x72, 0x73, 0xde, 0xad, 0xbe, 0xef]

/-- The sample device holding `echoOdd`. -/
def echoOddStore : Store Unit := sampleStore sampleIp echoOdd

/-- The frame `echoOdd` with another ICMP checksum field: the value that the
verification call of `process_icmp` computes for it. -/
def echoOddAccepted : List Nat :=
  [0x02, 0x00, 0x00, 0x00, 0x00, 0x01, 0x02, 0x00, 0x00, 0x00, 0x00, 0x09, 0x08, 0x00,
   0x45, 0x00, 0x00, 0x2f, 0x00, 0x01, 0x00, 0x00, 0x40, 0x01, 0xf9, 0x72, 0xc0, 0xa8,
   0x00, 0x01, 0xc0, 0xa8, 0x00, 0x09, 0x08, 0x00, 0x22, 0x61, 0x00, 0x01, 0x00, 0x01,
   0x61, 0x62, 0x63, 0x64, 0x65, 0x66, 0x67, 0x68, 0x69, 0x6a, 0x6b, 0x6c, 0x6d, 0x6e,
   0x6f, 0x70, 0x71, 0x72, 0x73, 0xde, 0xad, 0xbe, 0xef]

/-- The sample device holding `echoOddAccepted`. -/
def echoOddAcceptedStore : Store Unit := sampleStore sampleIp echoOddAccepted

/-- An echo request to the sample device whose ICMP checksum is wrong. -/
def echoBad : List Nat :=
  [0x02, 0x00, 0x00, 0x00, 0x00, 0x01, 0x02, 0x00, 0x00, 0x00, 0x00, 0x09, 0x08, 0x00,
   0x45, 0x00, 0x00, 0x20, 0x00, 0x01, 0x00, 0x00, 0x40, 0x01, 0xf9, 0x81, 0xc0, 0xa8,
   0x00, 0x01, 0xc0, 0xa8, 0x00, 0x09, 0x08, 0x00, 0x32, 0x36, 0x00, 0x01, 0x00, 0x01,
   0x61, 0x62, 0x63, 0x64]

/-- The sample device holding `echoBad`. -/
def echoBadStore : Store Unit := sampleStore sampleIp echoBad

/-- A UDP datagram to the sample device with a correct checksum and the payload
`VERS` followed by eight zero bytes. -/
def versFrame : List Nat :=
  [0x02, 0x00, 0x00, 0x00, 0x00, 0x01, 0x02, 0x00, 0x00, 0x00, 0x00, 0x09, 0x08, 0x00,
   0x45, 0x00, 0x00, 0x28, 0x00, 0x01, 0x00, 0x00, 0x40, 0x11, 0xf9, 0x69, 0xc0, 0xa8,
   0x00, 0x01, 0xc0, 0xa8, 0x00, 0x09, 0x12, 0x34, 0x7a, 0x69, 0x00, 0x14, 0x49, 0x35,
   0x56, 0x45, 0x52, 0x53, 0x00, 0x00, 0x00, 0x00, 0x00, 0x00, 0x00, 0x00]

/-- The sample device holding `versFrame`. -/
def versStore : Store Unit := sampleStore sampleIp versFrame

/-- The datagram `versFrame` with a checksum field that is neither 0, nor 0xFFFF,
nor the checksum of the datagram. -/
def udpBad : List Nat :=
  [0x02, 0x00, 0x00, 0x00, 0x00, 0x01, 0x02, 0x00, 0x00, 0x00, 0x00, 0x09, 0x08, 0x00,
   0x45, 0x00, 0x00, 0x28, 0x00, 0x01, 0x00, 0x00, 0x40, 0x11, 0xf9, 0x69, 0xc0, 0xa8,
   0x00, 0x01, 0xc0, 0xa8, 0x00, 0x09, 0x12, 0x34, 0x7a, 0x69, 0x00, 0x14, 0x49, 0x36,
   0x56, 0x45, 0x52, 0x53, 0x00, 0x00, 0x00, 0x00, 0x00, 0x00, 0x00, 0x00]

/-- The sample device holding `udpBad`. -/
def udpBadStore : Store Unit := sampleStore sampleIp udpBad

/-- A UDP datagram to the sample device with a correct checksum whose payload
starts with the byte 2, the BOOTREPLY code of the sample configuration. -/
def dhcpFrame : List Nat :=
  [0x02, 0x00, 0x00, 0x00, 0x00, 0x01, 0x02, 0x00, 0x00, 0x00, 0x00, 0x09, 0x08, 0x00,
   0x45, 0x00, 0x00, 0x24, 0x00, 0x01, 0x00, 0x00, 0x40, 0x11, 0xf9, 0x6d, 0xc0, 0xa8,
   0x00, 0x01, 0xc0, 0xa8, 0x00, 0x09, 0x12, 0x34, 0x7a, 0x69, 0x00, 0x10, 0xa5, 0x6e,
   0x02, 0x01, 0x06, 0x00, 0x11, 0x22, 0x33, 0x44]

/-- The sample device holding `dhcpFrame`. -/
def dhcpStore : Store Unit := sampleStore sampleIp dhcpFrame

/-! ## The fragmentation check of `process_mine` -/

/-- The value that the fragmentation check of `process_mine` tests,
`ntohs(ip_header->flags_frag_offset) & 0x3fff`; the packet is dropped when it is
not 0. -/
def frag_check (pkt : Mem) : Nat := ntohs (rd16 pkt (ETHER_H_LEN + 6)) &&& 0x3fff

/-- What `process_mine` does with a packet that it lets past the fragmentation
check: the header-checksum verification and the protocol dispatch (the statements
after the check). -/
def process_mine_checked {X : Type} (env : Env X) (s : Store X) : Out X :=
  let pkt := s.pkt
  let ether_header := 0
  let ip_header := ETHER_H_LEN
  -- i = ip_header->checksum; ip_header->checksum = 0; ip_header->checksum = checksum(..);
  let i := rd16 pkt (ip_header + 10)
  let pkt2 := ip_check env pkt ip_header
  let s2 : Store X := { s with pkt := pkt2 }
  if i ≠ rd16 pkt2 (ip_header + 10) then ret s2
  else if rd8 pkt2 (ip_header + 9) = IP_UDP_PROTOCOL then
    process_udp env s2 ether_header ip_header
      (ETHER_H_LEN + 4 * (rd8 pkt2 (ip_header + 0) &&& 0x0f))
  else if rd8 pkt2 (ip_header + 9) = IP_ICMP_PROTOCOL then
    process_icmp env s2 ether_header ip_header
      (ETHER_H_LEN + 4 * (rd8 pkt2 (ip_header + 0) &&& 0x0f))
  else ret s2

/-- The fragment offset of the IPv4 header: the low 13 bits of the big-endian
flags and fragment offset field. -/
def frag_offset (pkt : Mem) : Nat := be16 pkt 20 % 8192

/-- The more-fragments flag of the IPv4 header: bit 13 of the field. -/
def more_fragments (pkt : Mem) : Nat := be16 pkt 20 / 8192 % 2

/-- The don't-fragment flag of the IPv4 header: bit 14 of the field. -/
def dont_fragment (pkt : Mem) : Nat := be16 pkt 20 / 16384 % 2

/-- The echo request `echoEven` without the bytes after it and with the
don't-fragment flag set (and the header checksum that goes with it). -/
def echoDF : List Nat :=
  [0x02, 0x00, 0x00, 0x00, 0x00, 0x01, 0x02, 0x00, 0x00, 0x00, 0x00, 0x09, 0x08, 0x00,
   0x45, 0x00, 0x00, 0x2e, 0x00, 0x01, 0x40, 0x00, 0x40, 0x01, 0xb9, 0x73, 0xc0, 0xa8,
   0x00, 0x01, 0xc0, 0xa8, 0x00, 0x09, 0x08, 0x00, 0x43, 0x40, 0x00, 0x01, 0x00, 0x01,
   0x61, 0x62, 0x63, 0x64, 0x65, 0x66, 0x67, 0x68, 0x69, 0x6a, 0x6b, 0x6c, 0x6d, 0x6e,
   0x6f, 0x70, 0x71, 0x72]

/-- The sample device holding `echoDF`. -/
def echoDFStore : Store Unit := sampleStore sampleIp echoDF

/-! ## The order of the comparison chain -/

/-- The commands in the order in which `process_udp` compares their
identifiers. -/
def cmd_order : List Cmd :=
  [Cmd.partbin, Cmd.donebin, Cmd.retval, Cmd.loadbin, Cmd.maple, Cmd.pmcr,
   Cmd.sendbinq, Cmd.sendbin, Cmd.execute, Cmd.version, Cmd.reboot]

/-- The first command in the order of the chain whose identifier is `id`, if
there is one. -/
def first_match {X : Type} (env : Env X) (id : Nat) : Option Cmd :=
  cmd_order.find? (fun c => decide (env.CMD c = id))

/-- The links `cmd_step` of the given commands, one after the other. -/
def cmd_steps {X : Type} (env : Env X) (udp : Nat) : List Cmd → Out X × Nat → Out X × Nat
  | [], r => r
  | c :: cs, r => cmd_steps env udp cs (cmd_step env udp c r)

/-- The sample configuration with the identifier of `donebin` and of `retval`
replaced by that of `version`, so that three identifiers are equal. -/
def clashEnv : Env Unit :=
  { sampleEnv true with
    CMD := fun c => if c = Cmd.donebin ∨ c = Cmd.retval then sampleCMD Cmd.version else sampleCMD c }

/-! ## The one's-complement sum as a function of the plain sum -/

/-- The plain sum of `n` consecutive 16-bit words from offset `a`. -/
def wsum (m : Mem) : Nat → Nat → Nat
  | _, 0 => 0
  | a, n + 1 => rd16 m a + wsum m (a + 2) n

/-- The one's-complement sum with end-around carry of words whose plain sum is
`t`: 0 for 0, and otherwise the representative of `t` modulo 65535 in
`1 .. 65535`. -/
def oc_norm (t : Nat) : Nat := if t = 0 then 0 else (t - 1) % 65535 + 1

/-- A frame to the sample device whose IPv4 header is four words long, so that
the destination address field and the ICMP header coincide: header `14 .. 29`
with a valid checksum, protocol ICMP, total length 28, and at offset 30 the type
8, code 0 and a checksum that the verification call of `process_icmp` accepts. -/
def echoShortHeader : List Nat :=
  [0x02, 0x00, 0x00, 0x00, 0x00, 0x01, 0x02, 0x00, 0x00, 0x00, 0x00, 0x09, 0x08, 0x00,
   0x44, 0x00, 0x00, 0x1c, 0x00, 0x01, 0x00, 0x00, 0x40, 0x01, 0xbb, 0x37, 0xc0, 0xa8,
   0x00, 0x01, 0x08, 0x00, 0x33, 0x37, 0x00, 0x01, 0x00, 0x01, 0x61, 0x62, 0x63, 0x64]

/-- The sample device holding `echoShortHeader`. -/
def echoShortHeaderStore : Store Unit := sampleStore sampleIp echoShortHeader

/-- A UDP datagram to the sample device with a payload of seven bytes (UDP length
15) and a correct checksum, followed in the buffer by two bytes that are not part
of it. -/
def udpOdd : List Nat :=
  [0x02, 0x00, 0x00, 0x00, 0x00, 0x01, 0x02, 0x00, 0x00, 0x00, 0x00, 0x09, 0x08, 0x00,
   0x45, 0x00, 0x00, 0x23, 0x00, 0x01, 0x00, 0x00, 0x40, 0x11, 0xf9, 0x6e, 0xc0, 0xa8,
   0x00, 0x01, 0xc0, 0xa8, 0x00, 0x09, 0x12, 0x34, 0x7a, 0x69, 0x00, 0x0f, 0x3d, 0x25,
   0x58, 0x58, 0x58, 0x58, 0x01, 0x02, 0x03, 0xde, 0xad]

/-- The sample device holding `udpOdd`. -/
def udpOddStore : Store Unit := sampleStore sampleIp udpOdd

/-! ## Lemmas on buffers -/

theorem rd8_lt (m : Mem) (a : Nat) : rd8 m a < 256 := (m a).isLt

theorem mem_eq_iff (x y : Byte) : x = y ↔ x.val = y.val := Fin.ext_iff

@[simp] theorem rd8_zeroMem (a : Nat) : rd8 zeroMem a = 0 := rfl

@[simp] theorem rd8_ofList (l : List Nat) (a : Nat) : rd8 (ofList l) a = l.getD a 0 % 256 := rfl

@[simp] theorem rd8_wr8 (m : Mem) (a v i : Nat) :
    rd8 (wr8 m a v) i = if i = a then v % 256 else rd8 m i := by
  unfold rd8 wr8; split <;> rfl

@[simp] theorem rd8_wr16 (m : Mem) (a v i : Nat) :
    rd8 (wr16 m a v) i
      = if i = a then v % 256 else if i = a + 1 then v / 256 % 256 else rd8 m i := by
  unfold rd8 wr16; split
  · rfl
  · split <;> rfl

@[simp] theorem rd8_wr32 (m : Mem) (a v i : Nat) :
    rd8 (wr32 m a v) i
      = if i = a then v % 256 else if i = a + 1 then v / 256 % 256
        else if i = a + 2 then v / 65536 % 256
        else if i = a + 3 then v / 16777216 % 256 else rd8 m i := by
  unfold rd8 wr32; split
  · rfl
  · split
    · rfl
    · split
      · rfl
      · split <;> rfl

@[simp] theorem rd8_memcpy_16bit (dst : Mem) (d : Nat) (src : Mem) (s n i : Nat) :
    rd8 (memcpy_16bit dst d src s n) i
      = if d ≤ i ∧ i < d + 2 * n then rd8 src (s + (i - d)) else rd8 dst i := by
  unfold rd8 memcpy_16bit; split <;> rfl

theorem mem_ext {m m' : Mem} (h : ∀ i, rd8 m i = rd8 m' i) : m = m' :=
  funext fun i => Fin.ext (h i)

theorem ntohs_rd16 (m : Mem) (a : Nat) : ntohs (rd16 m a) = be16 m a := by
  have h0 := rd8_lt m a
  have h1 := rd8_lt m (a + 1)
  unfold ntohs rd16 be16
  omega

theorem rd16_lt (m : Mem) (a : Nat) : rd16 m a < 65536 := by
  have h0 := rd8_lt m a
  have h1 := rd8_lt m (a + 1)
  unfold rd16
  omega

theorem rd16_eq_iff (m : Mem) (a v : Nat) :
    rd16 m a = v ↔ rd8 m a = v % 256 ∧ rd8 m (a + 1) = v / 256 := by
  have h0 := rd8_lt m a
  have h1 := rd8_lt m (a + 1)
  unfold rd16
  omega

theorem rd16_wr16_same (m : Mem) (a v : Nat) : rd16 (wr16 m a v) a = v % 65536 := by
  unfold rd16
  simp only [rd8_wr16]
  simp
  omega

/-- Storing back the value a 16-bit field held, after any store to that field,
restores the buffer. -/
theorem wr16_restore (m : Mem) (a x : Nat) : wr16 (wr16 m a x) a (rd16 m a) = m := by
  apply mem_ext
  intro i
  have h0 := rd8_lt m a
  have h1 := rd8_lt m (a + 1)
  simp only [rd8_wr16, rd16]
  split
  · subst_vars; omega
  · split
    · subst_vars; omega
    · rfl

theorem and_15 (x : Nat) : x &&& 0x0f = x % 16 := Nat.and_pow_two_sub_one_eq_mod x 4

theorem and_3fff (x : Nat) : x &&& 0x3fff = x % 16384 := Nat.and_pow_two_sub_one_eq_mod x 14

theorem memcmp_16bit_eq_zero (a : Mem) (ao : Nat) (b : Mem) (bo n : Nat) :
    memcmp_16bit_eq a ao b bo n = 0 ↔ ∀ k, k < 2 * n → a (ao + k) = b (bo + k) := by
  unfold memcmp_16bit_eq
  split <;> simp_all

theorem memcmp_mac (pkt x : Mem) : memcmp_16bit_eq pkt (0 + 0) x 0 (6 / 2) = 0 ↔ mac_eq pkt 0 x := by
  rw [memcmp_16bit_eq_zero]
  unfold mac_eq
  simp

/-! ## The frame dispatcher -/

/-- C8. A frame has an effect only if its EtherType is 0x0800 and its destination
is the device MAC, or its EtherType is 0x0806 and its destination is the broadcast
address: on every other frame `process_pkt` returns with memory (receive and
transmit buffer included) unchanged and without any call to the adapter, the DHCP
hook or a handler. -/
theorem process_pkt_discards {X : Type} (env : Env X) (s : Store X)
    (h : ¬ ((be16 s.pkt 12 = 0x0800 ∧ mac_eq s.pkt 0 s.mac)
          ∨ (be16 s.pkt 12 = 0x0806 ∧ mac_eq s.pkt 0 broadcast))) :
    process_pkt env s = ret s := by
  have h12 := rd8_lt s.pkt 12
  have h13 := rd8_lt s.pkt 13
  simp only [be16, Nat.reduceAdd] at h
  simp only [process_pkt, memcmp_mac, Nat.zero_add]
  split
  · rfl
  · rename_i h8
    split
    · rename_i hm
      simp only [process_mine, Nat.zero_add]
      rw [if_pos]
      intro h0
      exact h (Or.inl ⟨by omega, hm⟩)
    · split
      · rename_i hb
        simp only [process_broadcast, Nat.zero_add]
        rw [if_pos]
        intro h6
        exact h (Or.inr ⟨by omega, hb⟩)
      · rfl

/-- An IPv6 frame to the device MAC is discarded. -/
theorem process_pkt_discards_witness :
    ¬ ((be16 (sampleStore 0 [2, 0, 0, 0, 0, 1, 2, 0, 0, 0, 0, 9, 0x86, 0xdd, 0x60]).pkt 12 = 0x0800
          ∧ mac_eq (sampleStore 0 [2, 0, 0, 0, 0, 1, 2, 0, 0, 0, 0, 9, 0x86, 0xdd, 0x60]).pkt 0
              (sampleStore 0 [2, 0, 0, 0, 0, 1, 2, 0, 0, 0, 0, 9, 0x86, 0xdd, 0x60]).mac)
        ∨ (be16 (sampleStore 0 [2, 0, 0, 0, 0, 1, 2, 0, 0, 0, 0, 9, 0x86, 0xdd, 0x60]).pkt 12 = 0x0806
          ∧ mac_eq (sampleStore 0 [2, 0, 0, 0, 0, 1, 2, 0, 0, 0, 0, 9, 0x86, 0xdd, 0x60]).pkt 0 broadcast))
    ∧ process_pkt (sampleEnv true) (sampleStore 0 [2, 0, 0, 0, 0, 1, 2, 0, 0, 0, 0, 9, 0x86, 0xdd, 0x60])
        = ret (sampleStore 0 [2, 0, 0, 0, 0, 1, 2, 0, 0, 0, 0, 9, 0x86, 0xdd, 0x60]) :=
  ⟨by decide, process_pkt_discards _ _ (by decide)⟩

/-- C6. A frame to the device MAC with EtherType 0x0800 in which any of the low
14 bits of the big-endian flags and fragment offset field is set makes
`process_pkt` return at once: no call to the adapter, the DHCP hook or a handler,
and memory, with the receive buffer and so every checksum field, is unchanged;
the header checksum and the protocol id play no part. -/
theorem process_pkt_fragment {X : Type} (env : Env X) (s : Store X)
    (hdst : mac_eq s.pkt 0 s.mac) (htype : be16 s.pkt 12 = 0x0800)
    (hfrag : be16 s.pkt 20 % 2 ^ 14 ≠ 0) :
    process_pkt env s = ret s := by
  have h12 := rd8_lt s.pkt 12
  have h13 := rd8_lt s.pkt 13
  simp only [be16, Nat.reduceAdd] at htype
  simp only [Nat.reducePow] at hfrag
  simp only [process_pkt, memcmp_mac, Nat.zero_add]
  rw [if_neg (by omega), if_pos hdst]
  simp only [process_mine, Nat.zero_add, ntohs_rd16, and_3fff, ETHER_H_LEN, Nat.reduceAdd]
  rw [if_neg (by omega), if_pos hfrag]

/-- A frame to the sample device with the more-fragments flag set is dropped. -/
theorem process_pkt_fragment_witness :
    mac_eq (sampleStore sampleIp fragmentFrame).pkt 0 (sampleStore sampleIp fragmentFrame).mac
    ∧ be16 (sampleStore sampleIp fragmentFrame).pkt 12 = 0x0800
    ∧ be16 (sampleStore sampleIp fragmentFrame).pkt 20 % 2 ^ 14 ≠ 0
    ∧ process_pkt (sampleEnv true) (sampleStore sampleIp fragmentFrame)
        = ret (sampleStore sampleIp fragmentFrame) :=
  ⟨by decide, by decide, by decide,
    process_pkt_fragment _ _ (by decide) (by decide) (by decide)⟩

/-! ## The ARP responder -/

theorem range42 : List.range 42 = [0,1,2,3,4,5,6,7,8,9,10,11,12,13,14,15,16,17,18,19,20,21,22,23,24,25,26,27,28,29,30,31,32,33,34,35,36,37,38,39,40,41] := by decide

theorem htonl_bytes (x : Nat) :
    htonl x % 256 = x / 16777216 % 256 ∧ htonl x / 256 % 256 = x / 65536 % 256 ∧
    htonl x / 65536 % 256 = x / 256 % 256 ∧ htonl x / 16777216 % 256 = x % 256 := by
  unfold htonl
  have ha := Nat.mod_lt x (show 256 > 0 by decide)
  have hb := Nat.mod_lt (x / 256) (show 256 > 0 by decide)
  have hc := Nat.mod_lt (x / 65536) (show 256 > 0 by decide)
  have hd := Nat.mod_lt (x / 16777216) (show 256 > 0 by decide)
  generalize x % 256 = a at *
  generalize x / 256 % 256 = b at *
  generalize x / 65536 % 256 = c at *
  generalize x / 16777216 % 256 = d at *
  omega

theorem memcmp_ip (pkt : Mem) (x : U32) :
    memcmp_16bit_eq pkt (14 + 24) (wr32 zeroMem 0 (htonl x.val)) 0 (4 / 2) = 0 ↔ be32 pkt 38 = x.val := by
  rw [memcmp_16bit_eq_zero]
  have hx := x.isLt
  have h0 := rd8_lt pkt 38
  have h1 := rd8_lt pkt 39
  have h2 := rd8_lt pkt 40
  have h3 := rd8_lt pkt 41
  obtain ⟨b0, b1, b2, b3⟩ := htonl_bytes x.val
  simp only [be32, Nat.reduceAdd]
  constructor
  · intro h
    have e0 := (mem_eq_iff _ _).1 (h 0 (by decide))
    have e1 := (mem_eq_iff _ _).1 (h 1 (by decide))
    have e2 := (mem_eq_iff _ _).1 (h 2 (by decide))
    have e3 := (mem_eq_iff _ _).1 (h 3 (by decide))
    change rd8 pkt 38 = rd8 _ 0 at e0
    change rd8 pkt 39 = rd8 _ 1 at e1
    change rd8 pkt 40 = rd8 _ 2 at e2
    change rd8 pkt 41 = rd8 _ 3 at e3
    simp only [rd8_wr32, Nat.reduceAdd, OfNat.ofNat_ne_zero, OfNat.zero_ne_ofNat, if_true, if_false,
      Nat.reduceEqDiff, Nat.succ_ne_self, b0, b1, b2, b3] at e0 e1 e2 e3
    omega
  · intro h k hk
    rw [mem_eq_iff]
    change rd8 pkt (14 + 24 + k) = rd8 _ (0 + k)
    have hk4 : k < 4 := by omega
    interval_cases k <;>
      simp only [rd8_wr32, Nat.reduceAdd, OfNat.ofNat_ne_zero, OfNat.zero_ne_ofNat, if_true, if_false,
        Nat.reduceEqDiff, Nat.succ_ne_self, b0, b1, b2, b3] <;> omega

theorem rd16_be16 (m : Mem) (a v : Nat) (hv : v < 65536) :
    rd16 m a = v ↔ be16 m a = (v % 256) * 256 + v / 256 := by
  have h0 := rd8_lt m a
  have h1 := rd8_lt m (a + 1)
  unfold rd16 be16
  omega

/-- The answering path of `process_broadcast`. -/
theorem process_broadcast_answer {X : Type} (s : Store X)
    (h13 : rd8 s.pkt 13 = 6) (hhw : be16 s.pkt 14 = 1) (hpr : be16 s.pkt 16 = 0x0800)
    (hop : be16 s.pkt 20 = 1) (hip : s.our_ip.val ≠ 0) (ht : be32 s.pkt 38 = s.our_ip.val) :
    (process_broadcast s).events = [Event.tx (frame (process_broadcast s).st.pkt 42)]
    ∧ frame (process_broadcast s).st.pkt 42
        = bytes s.pkt 6 6 ++ bytes s.mac 0 6 ++ bytes s.pkt 12 8 ++ [0x00, 0x02]
          ++ bytes s.mac 0 6 ++ bytes s.pkt 38 4 ++ bytes s.pkt 22 10 := by
  have e1 : rd16 s.pkt 14 = 0x0100 := (rd16_be16 _ _ _ (by decide)).2 hhw
  have e2 : rd16 s.pkt 16 = 0x0008 := (rd16_be16 _ _ _ (by decide)).2 hpr
  have e3 : rd16 s.pkt 20 = 0x0100 := (rd16_be16 _ _ _ (by decide)).2 hop
  have e4 := (memcmp_ip s.pkt s.our_ip).2 ht
  simp only [Nat.reduceAdd] at e4
  simp only [process_broadcast, ETHER_H_LEN, ARP_H_LEN, Nat.zero_add, Nat.add_zero, Nat.reduceAdd,
    h13, e1, e2, e3, e4, hip, ne_eq, not_true_eq_false, if_false, if_true]
  refine ⟨trivial, ?_⟩
  simp [frame, bytes, range42, List.range_succ]

/-- The silent paths of `process_broadcast`. -/
theorem process_broadcast_silent {X : Type} (s : Store X)
    (h : ¬ (rd8 s.pkt 13 = 6 ∧ be16 s.pkt 14 = 1 ∧ be16 s.pkt 16 = 0x0800 ∧ be16 s.pkt 20 = 1
          ∧ s.our_ip.val ≠ 0 ∧ be32 s.pkt 38 = s.our_ip.val)) :
    process_broadcast s = ret s := by
  have e1 : rd16 s.pkt 14 = 0x0100 ↔ _ := rd16_be16 _ _ _ (by decide)
  have e2 : rd16 s.pkt 16 = 0x0008 ↔ _ := rd16_be16 _ _ _ (by decide)
  have e3 : rd16 s.pkt 20 = 0x0100 ↔ _ := rd16_be16 _ _ _ (by decide)
  have e4 := memcmp_ip s.pkt s.our_ip
  simp only [Nat.reduceAdd, Nat.reduceMod, Nat.reduceDiv, Nat.reduceMul] at e1 e2 e3 e4
  simp only [process_broadcast, ETHER_H_LEN, ARP_H_LEN, Nat.zero_add, Nat.add_zero, Nat.reduceAdd,
    e1, e2, e3, e4]
  split_ifs <;> first | rfl | (exfalso; apply h; refine ⟨?_, ?_, ?_, ?_, ?_, ?_⟩ <;> first | assumption | omega)

/-- C2. Whenever `process_broadcast` answers, it transmits once, from the receive
buffer, exactly 42 bytes: the request's source MAC, the device MAC, the request's
EtherType, address-space tags and length bytes unchanged, opcode 2, the device MAC
as sender hardware address, the request's target IP (which is the device IP) as
sender IP, and the request's sender hardware address and sender IP as target. -/
theorem arp_reply_frame {X : Type} (s : Store X) (h : (process_broadcast s).events ≠ []) :
    (process_broadcast s).events = [Event.tx (frame (process_broadcast s).st.pkt 42)]
    ∧ (frame (process_broadcast s).st.pkt 42).length = 14 + 28
    ∧ frame (process_broadcast s).st.pkt 42
        = bytes s.pkt 6 6 ++ bytes s.mac 0 6 ++ bytes s.pkt 12 8 ++ [0x00, 0x02]
          ++ bytes s.mac 0 6 ++ bytes s.pkt 38 4 ++ bytes s.pkt 22 10
    ∧ be32 s.pkt 38 = s.our_ip.val := by
  by_cases hc : rd8 s.pkt 13 = 6 ∧ be16 s.pkt 14 = 1 ∧ be16 s.pkt 16 = 0x0800
      ∧ be16 s.pkt 20 = 1 ∧ s.our_ip.val ≠ 0 ∧ be32 s.pkt 38 = s.our_ip.val
  · obtain ⟨h13, hhw, hpr, hop, hip, ht⟩ := hc
    obtain ⟨he, hfr⟩ := process_broadcast_answer s h13 hhw hpr hop hip ht
    exact ⟨he, by simp [frame], hfr, ht⟩
  · rw [process_broadcast_silent s hc] at h
    exact absurd rfl h

/-- The sample ARP request is answered with the expected 42 bytes. -/
theorem arp_reply_frame_witness :
    (process_broadcast arpStore).events ≠ []
    ∧ (process_broadcast arpStore).events
        = [Event.tx (frame (process_broadcast arpStore).st.pkt 42)]
    ∧ (frame (process_broadcast arpStore).st.pkt 42).length = 14 + 28
    ∧ frame (process_broadcast arpStore).st.pkt 42
        = bytes arpStore.pkt 6 6 ++ bytes arpStore.mac 0 6 ++ bytes arpStore.pkt 12 8
          ++ [0x00, 0x02] ++ bytes arpStore.mac 0 6 ++ bytes arpStore.pkt 38 4
          ++ bytes arpStore.pkt 22 10
    ∧ be32 arpStore.pkt 38 = arpStore.our_ip.val :=
  ⟨by decide, arp_reply_frame arpStore (by decide)⟩

theorem frame_getD (m : Mem) (n i : Nat) :
    (frame m n).getD i 0 = if i < n then rd8 m i else 0 := by
  unfold frame
  rw [List.getD_eq_getElem?_getD, List.getElem?_map]
  by_cases h : i < n
  · rw [List.getElem?_range h, if_pos h]; rfl
  · rw [List.getElem?_eq_none (by simpa using h), if_neg h]; rfl

theorem cmd_step_no_tx {X : Type} (env : Env X) (udp : Nat) (c : Cmd) (r : Out X × Nat)
    (h : ∀ f, Event.tx f ∉ r.1.events) : ∀ f, Event.tx f ∉ (cmd_step env udp c r).1.events := by
  intro f
  unfold cmd_step
  split
  · simp [h f]
  · exact h f

theorem cmd_step_reboot_no_tx {X : Type} (env : Env X) (udp : Nat) (r : Out X × Nat)
    (h : ∀ f, Event.tx f ∉ r.1.events) : ∀ f, Event.tx f ∉ (cmd_step_reboot env udp r).1.events := by
  intro f
  unfold cmd_step_reboot
  split
  · simp [h f]
  · exact h f

theorem udp_dispatch_no_tx {X : Type} (env : Env X) (s : Store X) (ether udp : Nat) :
    ∀ f, Event.tx f ∉ (udp_dispatch env s ether udp).events := by
  unfold udp_dispatch
  split
  · lift_lets
    intro len r
    split <;> simp
  · lift_lets
    intro s2 id r0 r1 r2 r3 r4 r5 r6 r7 r8 r9 r10 r11
    apply cmd_step_reboot_no_tx
    repeat apply cmd_step_no_tx
    simp [r0, ret]

theorem process_udp_no_tx {X : Type} (env : Env X) (s : Store X) (ether ip udp : Nat) :
    ∀ f, Event.tx f ∉ (process_udp env s ether ip udp).events := by
  simp only [process_udp]
  split
  · simp [ret]
  · exact udp_dispatch_no_tx _ _ _ _

theorem process_icmp_tx {X : Type} (env : Env X) (s : Store X) (icmp : Nat) (hi : 14 ≤ icmp) :
    ∀ f, Event.tx f ∈ (process_icmp env s 0 14 icmp).events → f.getD 13 0 = rd8 s.pkt 13 := by
  intro f hf
  simp only [process_icmp] at hf
  split_ifs at hf
  · simp [ret] at hf
  · simp only [List.mem_singleton, Event.tx.injEq] at hf
    subst hf
    rw [frame_getD, if_pos (by simp only [ETHER_H_LEN]; omega)]
    simp only [icmp_reply, icmp_check, rd8_wr16, rd8_wr8, rd8_memcpy_16bit]
    repeat (first | rfl | rw [if_neg (by omega)])
  · simp [ret] at hf

theorem process_mine_tx {X : Type} (env : Env X) (s : Store X) :
    ∀ f, Event.tx f ∈ (process_mine env s).events → f.getD 13 0 = 0 := by
  intro f
  unfold process_mine
  lift_lets
  intro pkt eh iph
  split
  · simp [ret]
  · rename_i h13
    split
    · simp [ret]
    · intro i pkt2 s2
      split
      · simp [ret]
      · split
        · intro hf
          exact absurd hf (process_udp_no_tx _ _ _ _ _ f)
        · split
          · intro hf
            have := process_icmp_tx env s2 _ (by simp only [ETHER_H_LEN]; omega) f hf
            rw [this]
            simp only [s2, pkt2, ip_check, iph, ETHER_H_LEN, rd8_wr16]
            simp only [eh, pkt, Nat.zero_add, ne_eq, not_not] at h13
            simpa using h13
          · simp [ret]

/-- C1. With a device MAC other than the broadcast address, `process_pkt`
transmits an ARP reply if and only if the frame has the broadcast destination,
EtherType 0x0806, hardware address space 1, protocol address space 0x0800 and
opcode 1, the device IP is nonzero and the ARP target IP is the device IP.  When
that holds, the one call made is the transmission of a 42-byte ARP reply; when it
fails, a frame that has EtherType 0x0806 (also one unicast to the device MAC) or
is not addressed to the device MAC causes no call and no change of memory. -/
theorem arp_reply_iff {X : Type} (env : Env X) (s : Store X) (hmac : ¬ mac_eq s.mac 0 broadcast) :
    ((∃ f, Event.tx f ∈ (process_pkt env s).events ∧ is_arp_reply f) ↔ arp_request_for_us s)
    ∧ (arp_request_for_us s →
        ∃ f, (process_pkt env s).events = [Event.tx f] ∧ f.length = 42 ∧ is_arp_reply f)
    ∧ (¬ arp_request_for_us s → be16 s.pkt 12 = 0x0806 ∨ ¬ mac_eq s.pkt 0 s.mac →
        process_pkt env s = ret s) := by
  have h12 := rd8_lt s.pkt 12
  have h13 := rd8_lt s.pkt 13
  have hnm : mac_eq s.pkt 0 broadcast → ¬ mac_eq s.pkt 0 s.mac := by
    intro hb hm
    apply hmac
    intro k hk
    have := hm k hk
    have := hb k hk
    simp_all
  have key : arp_request_for_us s →
      ∃ f, (process_pkt env s).events = [Event.tx f] ∧ f.length = 42 ∧ is_arp_reply f := by
    rintro ⟨hb, ht, hhw, hpr, hop, hip, htg⟩
    simp only [be16, Nat.reduceAdd] at ht
    obtain ⟨he, hfr⟩ := process_broadcast_answer s (by omega) hhw hpr hop hip htg
    refine ⟨frame (process_broadcast s).st.pkt 42, ?_, ?_, ?_⟩
    · simp only [process_pkt, memcmp_mac, Nat.zero_add]
      rw [if_neg (by omega), if_neg (hnm hb), if_pos hb]
      exact he
    · simp [frame]
    · rw [hfr]
      have h12' : rd8 s.pkt 12 = 8 := by omega
      have h13' : rd8 s.pkt 13 = 6 := by omega
      simp [is_arp_reply, bytes, List.range_succ, h12', h13']
  refine ⟨⟨?_, ?_⟩, key, ?_⟩
  · rintro ⟨f, hf, hr⟩
    simp only [process_pkt, memcmp_mac, Nat.zero_add] at hf
    split at hf
    · simp [ret] at hf
    · rename_i h8
      split at hf
      · have := process_mine_tx env s f hf
        rw [hr.2.1] at this
        exact absurd this (by decide)
      · split at hf
        · rename_i hb
          by_cases hc : rd8 s.pkt 13 = 6 ∧ be16 s.pkt 14 = 1 ∧ be16 s.pkt 16 = 0x0800
              ∧ be16 s.pkt 20 = 1 ∧ s.our_ip.val ≠ 0 ∧ be32 s.pkt 38 = s.our_ip.val
          · refine ⟨hb, ?_, hc.2⟩
            simp only [be16, Nat.reduceAdd]
            omega
          · rw [process_broadcast_silent s hc] at hf
            simp [ret] at hf
        · simp [ret] at hf
  · intro hc
    obtain ⟨f, he, _, hr⟩ := key hc
    exact ⟨f, by simp [he], hr⟩
  · intro hc ht
    simp only [be16, Nat.reduceAdd] at ht
    simp only [process_pkt, memcmp_mac, Nat.zero_add]
    split
    · rfl
    · rename_i h8
      split
      · rename_i hm
        simp only [process_mine, Nat.zero_add]
        rw [if_pos]
        rcases ht with ht | ht
        · omega
        · exact absurd hm ht
      · split
        · rename_i hb
          apply process_broadcast_silent
          rintro ⟨h6, hrest⟩
          apply hc
          refine ⟨hb, ?_, hrest⟩
          simp only [be16, Nat.reduceAdd]
          omega
        · rfl

/-- The sample ARP request is answered by the sample device. -/
theorem arp_reply_iff_witness :
    ¬ mac_eq arpStore.mac 0 broadcast
    ∧ ((∃ f, Event.tx f ∈ (process_pkt (sampleEnv true) arpStore).events ∧ is_arp_reply f)
        ↔ arp_request_for_us arpStore)
    ∧ (arp_request_for_us arpStore →
        ∃ f, (process_pkt (sampleEnv true) arpStore).events = [Event.tx f] ∧ f.length = 42
          ∧ is_arp_reply f)
    ∧ (¬ arp_request_for_us arpStore →
        be16 arpStore.pkt 12 = 0x0806 ∨ ¬ mac_eq arpStore.pkt 0 arpStore.mac →
        process_pkt (sampleEnv true) arpStore = ret arpStore) :=
  ⟨by decide, arp_reply_iff (sampleEnv true) arpStore (by decide)⟩

/-! ## The UDP processor and the command dispatcher -/

theorem rd16_wr16_zero (m : Mem) (a : Nat) : rd16 (wr16 m a 0) a = 0 := by
  simp [rd16]

/-- C5. With F the stored checksum field and C the value `checksum_udp` returns
for the pseudo header (which carries the UDP header with a zero checksum) and the
payload, a datagram passes the validation of `process_udp` if and only if F = 0,
or F = 0xFFFF and C = 0, or F is neither and C = F.  When it does not pass,
`process_udp` returns with no call made (no transmission, no DHCP hook, no
handler), and `escape_loop` and the collaborators' memory are unchanged. -/
theorem udp_checksum_rule {X : Type} (env : Env X) (s : Store X) (ether ip udp : Nat) :
    ((udp_validate env s ip udp).2 = true ↔
      (rd16 s.pkt (udp + 6) = 0
        ∨ (rd16 s.pkt (udp + 6) = 0xffff ∧ udp_computed env s ip udp = 0)
        ∨ (rd16 s.pkt (udp + 6) ≠ 0 ∧ rd16 s.pkt (udp + 6) ≠ 0xffff
            ∧ udp_computed env s ip udp = rd16 s.pkt (udp + 6))))
    ∧ ((udp_validate env s ip udp).2 = false →
        process_udp env s ether ip udp = ret (udp_validate env s ip udp).1
        ∧ (process_udp env s ether ip udp).events = []
        ∧ (process_udp env s ether ip udp).st.escape_loop = s.escape_loop
        ∧ (process_udp env s ether ip udp).st.ext = s.ext) := by
  constructor
  · simp only [udp_validate, decide_eq_true_eq]
    by_cases h0 : rd16 s.pkt (udp + 6) = 0
    · simp [h0]
    · by_cases hf : rd16 s.pkt (udp + 6) = 0xffff
      · simp [hf, rd16_wr16_zero]
      · simp [h0, hf]
  · intro h
    have e : process_udp env s ether ip udp = ret (udp_validate env s ip udp).1 := by
      simp only [process_udp, h, if_true]
    rw [e]
    exact ⟨rfl, rfl, rfl, rfl⟩

theorem cmd_chain_match {X : Type} (env : Env X) (s1 : Store X) (ether udp : Nat)
    (hinj : Function.Injective env.CMD) (hnz : ∀ c, env.CMD c ≠ 0)
    (hd : rd8 s1.pkt (udp + 8) ≠ env.DHCP_OP_BOOTREPLY)
    (c : Cmd) (hc : rd32 s1.pkt (udp + 8) = env.CMD c) :
    udp_dispatch env s1 ether udp
      = ⟨env.handler c udp
          { s1 with pkt_buf := env.make_ether s1.pkt (ether + 6) (ether + 0) s1.pkt_buf },
         [Event.cmd c], decide (c = Cmd.reboot)⟩ := by
  simp only [udp_dispatch, if_neg hd, hc]
  cases c <;>
    simp [cmd_step, cmd_step_reboot, memcmp_32bit_eq, hinj.eq_iff, hnz, ret]

theorem cmd_chain_none {X : Type} (env : Env X) (s1 : Store X) (ether udp : Nat)
    (hd : rd8 s1.pkt (udp + 8) ≠ env.DHCP_OP_BOOTREPLY)
    (hc : ∀ c, rd32 s1.pkt (udp + 8) ≠ env.CMD c) :
    udp_dispatch env s1 ether udp
      = ret { s1 with pkt_buf := env.make_ether s1.pkt (ether + 6) (ether + 0) s1.pkt_buf } := by
  simp only [udp_dispatch, if_neg hd]
  simp [cmd_step, cmd_step_reboot, memcmp_32bit_eq, hc, ret]

theorem validate_pkt_rd8 {X : Type} (env : Env X) (s : Store X) (ip udp i : Nat)
    (hi : i ≠ udp + 6 ∧ i ≠ udp + 7) :
    rd8 (udp_validate env s ip udp).1.pkt i = rd8 s.pkt i := by
  simp only [udp_validate]
  split
  · simp only [rd8_wr16]
    rw [if_neg hi.1, if_neg (by omega)]
  · rfl

theorem validate_pkt_rd32 {X : Type} (env : Env X) (s : Store X) (ip udp : Nat) :
    rd32 (udp_validate env s ip udp).1.pkt (udp + 8) = rd32 s.pkt (udp + 8) := by
  simp only [rd32]
  rw [validate_pkt_rd8, validate_pkt_rd8, validate_pkt_rd8, validate_pkt_rd8] <;> omega

/-- C7. With pairwise distinct nonzero command identifiers, on a validated
payload that is not a DHCP reply the handler of a command is called if and only
if the first four payload bytes are its identifier.  A payload carrying the
identifier of `c` causes exactly the one call of the handler of `c`, on the memory
left by the validation and `make_ether`; a payload carrying no known identifier
causes no call at all, so nothing is transmitted. -/
theorem command_dispatch {X : Type} (env : Env X) (s : Store X) (ether ip udp : Nat)
    (hinj : Function.Injective env.CMD) (hnz : ∀ c, env.CMD c ≠ 0)
    (hv : (udp_validate env s ip udp).2 = true)
    (hd : rd8 s.pkt (udp + 8) ≠ env.DHCP_OP_BOOTREPLY) :
    (∀ c, Event.cmd c ∈ (process_udp env s ether ip udp).events
        ↔ rd32 s.pkt (udp + 8) = env.CMD c)
    ∧ (∀ c, rd32 s.pkt (udp + 8) = env.CMD c →
        (process_udp env s ether ip udp).events = [Event.cmd c]
        ∧ (process_udp env s ether ip udp).st
            = env.handler c udp
                { (udp_validate env s ip udp).1 with
                  pkt_buf := env.make_ether (udp_validate env s ip udp).1.pkt (ether + 6)
                    (ether + 0) (udp_validate env s ip udp).1.pkt_buf })
    ∧ ((∀ c, rd32 s.pkt (udp + 8) ≠ env.CMD c) →
        (process_udp env s ether ip udp).events = []) := by
  have e : process_udp env s ether ip udp
      = udp_dispatch env (udp_validate env s ip udp).1 ether udp := by
    simp only [process_udp, hv]
    rfl
  have hd1 : rd8 (udp_validate env s ip udp).1.pkt (udp + 8) ≠ env.DHCP_OP_BOOTREPLY := by
    rw [validate_pkt_rd8 _ _ _ _ _ (by omega)]
    exact hd
  have hid := validate_pkt_rd32 env s ip udp
  have hm : ∀ c, rd32 s.pkt (udp + 8) = env.CMD c →
      process_udp env s ether ip udp = ⟨env.handler c udp
          { (udp_validate env s ip udp).1 with
            pkt_buf := env.make_ether (udp_validate env s ip udp).1.pkt (ether + 6)
              (ether + 0) (udp_validate env s ip udp).1.pkt_buf },
         [Event.cmd c], decide (c = Cmd.reboot)⟩ := by
    intro c hc
    rw [e]
    exact cmd_chain_match env _ ether udp hinj hnz hd1 c (hid.trans hc)
  have hn : (∀ c, rd32 s.pkt (udp + 8) ≠ env.CMD c) →
      (process_udp env s ether ip udp).events = [] := by
    intro hc
    rw [e, cmd_chain_none env _ ether udp hd1 (by rw [hid]; exact hc)]
    rfl
  refine ⟨?_, ?_, hn⟩
  · intro c
    constructor
    · intro hin
      by_cases hex : ∃ c0, rd32 s.pkt (udp + 8) = env.CMD c0
      · obtain ⟨c0, hc0⟩ := hex
        rw [hm c0 hc0] at hin
        simp only [List.mem_singleton, Event.cmd.injEq] at hin
        rw [hin]
        exact hc0
      · rw [hn (by simpa using hex)] at hin
        simp at hin
    · intro hc
      rw [hm c hc]
      simp
  · intro c hc
    rw [hm c hc]
    exact ⟨rfl, rfl⟩

theorem cmd_step_only_cmd {X : Type} (env : Env X) (udp : Nat) (c : Cmd) (r : Out X × Nat)
    (h : ∀ e, e ∈ r.1.events → ∃ c0, e = Event.cmd c0) :
    ∀ e, e ∈ (cmd_step env udp c r).1.events → ∃ c0, e = Event.cmd c0 := by
  intro e
  unfold cmd_step
  split
  · simp only [List.mem_append, List.mem_singleton]
    rintro (he | he)
    · exact h e he
    · exact ⟨c, he⟩
  · exact h e

theorem cmd_step_reboot_only_cmd {X : Type} (env : Env X) (udp : Nat) (r : Out X × Nat)
    (h : ∀ e, e ∈ r.1.events → ∃ c0, e = Event.cmd c0) :
    ∀ e, e ∈ (cmd_step_reboot env udp r).1.events → ∃ c0, e = Event.cmd c0 := by
  intro e
  unfold cmd_step_reboot
  split
  · simp only [List.mem_append, List.mem_singleton]
    rintro (he | he)
    · exact h e he
    · exact ⟨_, he⟩
  · exact h e

/-- On a payload that is not a DHCP reply, the only calls are handler calls. -/
theorem udp_dispatch_only_cmd {X : Type} (env : Env X) (s1 : Store X) (ether udp : Nat)
    (hd : rd8 s1.pkt (udp + 8) ≠ env.DHCP_OP_BOOTREPLY) :
    ∀ e, e ∈ (udp_dispatch env s1 ether udp).events → ∃ c0, e = Event.cmd c0 := by
  simp only [udp_dispatch, if_neg hd]
  apply cmd_step_reboot_only_cmd
  repeat apply cmd_step_only_cmd
  simp [ret]

theorem validate_be16_len {X : Type} (env : Env X) (s : Store X) (ip udp : Nat) :
    ntohs (rd16 (udp_validate env s ip udp).1.pkt (udp + 4)) = be16 s.pkt (udp + 4) := by
  rw [ntohs_rd16]
  simp only [be16]
  rw [validate_pkt_rd8, validate_pkt_rd8] <;> omega

/-- C10. On a validated datagram whose first payload byte is the BOOTREPLY code,
`process_udp` makes exactly one call, `handle_dhcp_reply` with `ether->src`, the
UDP payload and the UDP length minus 8; the memory afterwards is what the hook
left of the memory after validation (no reply header was built, no handler ran),
with `escape_loop` set to 1 if the hook returned false and as the hook left it if
the hook returned true.  On a validated datagram with another first payload byte
the hook is not called. -/
theorem dhcp_routing {X : Type} (env : Env X) (s : Store X) (ether ip udp : Nat)
    (hv : (udp_validate env s ip udp).2 = true) :
    (rd8 s.pkt (udp + 8) = env.DHCP_OP_BOOTREPLY →
      (process_udp env s ether ip udp).events
          = [Event.dhcp (ether + 6) (udp + 8) ((be16 s.pkt (udp + 4) : Int) - 8)]
      ∧ ((env.handle_dhcp_reply (ether + 6) (udp + 8) ((be16 s.pkt (udp + 4) : Int) - 8)
            (udp_validate env s ip udp).1).2 = false →
          (process_udp env s ether ip udp).st
            = { (env.handle_dhcp_reply (ether + 6) (udp + 8) ((be16 s.pkt (udp + 4) : Int) - 8)
                  (udp_validate env s ip udp).1).1 with escape_loop := 1 })
      ∧ ((env.handle_dhcp_reply (ether + 6) (udp + 8) ((be16 s.pkt (udp + 4) : Int) - 8)
            (udp_validate env s ip udp).1).2 = true →
          (process_udp env s ether ip udp).st
            = (env.handle_dhcp_reply (ether + 6) (udp + 8) ((be16 s.pkt (udp + 4) : Int) - 8)
                  (udp_validate env s ip udp).1).1))
    ∧ (rd8 s.pkt (udp + 8) ≠ env.DHCP_OP_BOOTREPLY →
        ∀ m p l, Event.dhcp m p l ∉ (process_udp env s ether ip udp).events) := by
  have e : process_udp env s ether ip udp
      = udp_dispatch env (udp_validate env s ip udp).1 ether udp := by
    simp only [process_udp, hv]
    rfl
  have hb : rd8 (udp_validate env s ip udp).1.pkt (udp + 8) = rd8 s.pkt (udp + 8) :=
    validate_pkt_rd8 _ _ _ _ _ (by omega)
  have hl := validate_be16_len env s ip udp
  constructor
  · intro hd
    rw [e]
    simp only [udp_dispatch, hb, hd, if_true, hl]
    refine ⟨?_, ?_, ?_⟩
    · split <;> rfl
    · intro hr
      rw [if_pos hr]
    · intro hr
      rw [if_neg (by simp [hr])]
  · intro hd m p l hin
    rw [e] at hin
    obtain ⟨c0, hc0⟩ := udp_dispatch_only_cmd env _ ether udp (by rw [hb]; exact hd) _ hin
    cases hc0

/-! ## The IPv4 validator -/

theorem wr16_mod (m : Mem) (a v : Nat) : wr16 m a (v % 65536) = wr16 m a v := by
  apply mem_ext
  intro i
  simp only [rd8_wr16]
  split
  · omega
  · split
    · omega
    · rfl

/-- A verification step that succeeds leaves the buffer as it was. -/
theorem wr16_restore_of_eq (m : Mem) (a c : Nat) (h : rd16 m a = rd16 (wr16 (wr16 m a 0) a c) a) :
    wr16 (wr16 m a 0) a c = m := by
  rw [rd16_wr16_same] at h
  rw [← wr16_mod, ← h]
  exact wr16_restore m a 0

theorem ip_check_restore {X : Type} (env : Env X) (pkt : Mem) (ip : Nat)
    (h : rd16 pkt (ip + 10) = rd16 (ip_check env pkt ip) (ip + 10)) : ip_check env pkt ip = pkt :=
  wr16_restore_of_eq _ _ _ h

theorem store_pkt_self {X : Type} (s : Store X) : { s with pkt := s.pkt } = s := rfl

/-- C9. An unfragmented IPv4 frame to the device MAC causes no call (no
transmission, no handler, no DHCP hook) when its stored header checksum differs
from the one recomputed over `2 * IHL` words with the field zeroed, or its
protocol is neither UDP nor ICMP, or it is ICMP with a type other than 8, or it
is an echo request whose stored ICMP checksum differs from the recomputed one. -/
theorem ipv4_drop {X : Type} (env : Env X) (s : Store X)
    (hdst : mac_eq s.pkt 0 s.mac) (htype : be16 s.pkt 12 = 0x0800)
    (hfrag : be16 s.pkt 20 % 2 ^ 14 = 0)
    (hbad : rd16 s.pkt 24 ≠ rd16 (ip_check env s.pkt 14) 24
      ∨ (rd8 s.pkt 23 ≠ IP_UDP_PROTOCOL ∧ rd8 s.pkt 23 ≠ IP_ICMP_PROTOCOL)
      ∨ (rd8 s.pkt 23 = IP_ICMP_PROTOCOL ∧ rd8 s.pkt (14 + 4 * ihl s.pkt) ≠ 8)
      ∨ (rd8 s.pkt 23 = IP_ICMP_PROTOCOL ∧ rd8 s.pkt (14 + 4 * ihl s.pkt) = 8
          ∧ rd16 s.pkt (14 + 4 * ihl s.pkt + 2)
              ≠ rd16 (icmp_check env s.pkt 14 (14 + 4 * ihl s.pkt)) (14 + 4 * ihl s.pkt + 2))) :
    (process_pkt env s).events = [] := by
  have h12 := rd8_lt s.pkt 12
  have h13 := rd8_lt s.pkt 13
  simp only [be16, Nat.reduceAdd] at htype
  simp only [Nat.reducePow] at hfrag
  simp only [process_pkt, memcmp_mac, Nat.zero_add]
  rw [if_neg (by omega), if_pos hdst]
  simp only [process_mine, Nat.zero_add, ntohs_rd16, and_3fff, and_15, ETHER_H_LEN, Nat.reduceAdd,
    Nat.add_zero]
  rw [if_neg (by omega), if_neg (by omega)]
  by_cases hck : rd16 s.pkt 24 = rd16 (ip_check env s.pkt 14) 24
  · rw [if_neg (by simpa using hck)]
    rw [ip_check_restore env s.pkt 14 hck]
    rcases hbad with hb | hb | hb | hb
    · exact absurd hck hb
    · rw [if_neg hb.1, if_neg hb.2]
      rfl
    · rw [if_neg (by rw [hb.1]; decide), if_pos hb.1]
      simp only [process_icmp, Nat.add_zero]
      unfold ihl at hb
      rw [if_neg hb.2]
      rfl
    · rw [if_neg (by rw [hb.1]; decide), if_pos hb.1]
      simp only [process_icmp, Nat.add_zero]
      unfold ihl at hb
      rw [if_pos hb.2.1, if_pos hb.2.2]
      rfl
  · rw [if_pos (by simpa using hck)]
    rfl

/-! ## Evaluations on sample frames -/

theorem sampleCMD_injective : Function.Injective sampleCMD := by
  intro a b h
  cases a <;> cases b <;> first | rfl | (exact absurd h (by decide))

theorem sampleCMD_ne_zero (c : Cmd) : sampleCMD c ≠ 0 := by
  cases c <;> decide

/-- The datagram with a wrong checksum fails the validation and causes no call. -/
theorem udp_checksum_rule_witness :
    (udp_validate (sampleEnv true) udpBadStore 14 34).2 = false
    ∧ (process_udp (sampleEnv true) udpBadStore 0 14 34).events = []
    ∧ (process_pkt (sampleEnv true) udpBadStore).events = [] :=
  ⟨by decide, ((udp_checksum_rule (sampleEnv true) udpBadStore 0 14 34).2 (by decide)).2.1,
    by decide⟩

/-- The datagram carrying `VERS` calls the version handler, once. -/
theorem command_dispatch_witness :
    (udp_validate (sampleEnv true) versStore 14 34).2 = true
    ∧ rd8 versStore.pkt (34 + 8) ≠ (sampleEnv true).DHCP_OP_BOOTREPLY
    ∧ rd32 versStore.pkt (34 + 8) = (sampleEnv true).CMD Cmd.version
    ∧ (process_udp (sampleEnv true) versStore 0 14 34).events = [Event.cmd Cmd.version] :=
  ⟨by decide, by decide, by decide,
    ((command_dispatch (sampleEnv true) versStore 0 14 34 sampleCMD_injective sampleCMD_ne_zero
      (by decide) (by decide)).2.1 Cmd.version (by decide)).1⟩

/-- The echo request with a wrong ICMP checksum causes no call. -/
theorem ipv4_drop_witness :
    mac_eq echoBadStore.pkt 0 echoBadStore.mac
    ∧ be16 echoBadStore.pkt 12 = 0x0800
    ∧ be16 echoBadStore.pkt 20 % 2 ^ 14 = 0
    ∧ rd8 echoBadStore.pkt 23 = IP_ICMP_PROTOCOL
    ∧ rd8 echoBadStore.pkt (14 + 4 * ihl echoBadStore.pkt) = 8
    ∧ rd16 echoBadStore.pkt (14 + 4 * ihl echoBadStore.pkt + 2)
        ≠ rd16 (icmp_check (sampleEnv true) echoBadStore.pkt 14 (14 + 4 * ihl echoBadStore.pkt))
            (14 + 4 * ihl echoBadStore.pkt + 2)
    ∧ (process_pkt (sampleEnv true) echoBadStore).events = [] :=
  ⟨by decide, by decide, by decide, by decide, by decide, by decide,
    ipv4_drop (sampleEnv true) echoBadStore (by decide) (by decide) (by decide) (by decide)⟩

/-- The DHCP reply is handed to a hook that answers false: one call, and the
keep-waiting flag is set. -/
theorem dhcp_routing_witness :
    (udp_validate (sampleEnv false) dhcpStore 14 34).2 = true
    ∧ rd8 dhcpStore.pkt (34 + 8) = (sampleEnv false).DHCP_OP_BOOTREPLY
    ∧ (process_udp (sampleEnv false) dhcpStore 0 14 34).events = [Event.dhcp 6 42 8]
    ∧ (process_udp (sampleEnv false) dhcpStore 0 14 34).st.escape_loop = 1 :=
  ⟨by decide, by decide,
    ((dhcp_routing (sampleEnv false) dhcpStore 0 14 34 (by decide)).1 (by decide)).1,
    congrArg Store.escape_loop
      (((dhcp_routing (sampleEnv false) dhcpStore 0 14 34 (by decide)).1 (by decide)).2.1 rfl)⟩

/-! ## The ICMP echo responder -/

theorem icmp_check_count_even (L v : Nat) (he : L % 2 = 0) (hl : 4 * (v % 16) ≤ L) :
    icmp_check_count L v = (((L - 4 * (v % 16)) / 2 : Nat) : Int) := by
  unfold icmp_check_count
  rw [and_15, Int.tdiv_eq_ediv (by omega) (by decide)]
  omega

theorem icmp_reply_count_eq (L v : Nat) (hl : 4 * (v % 16) ≤ L) :
    icmp_reply_count L v = (((L - 4 * (v % 16)) / 2 : Nat) : Int) := by
  unfold icmp_reply_count
  rw [and_15, Int.tdiv_eq_ediv (by omega) (by decide)]
  omega

/-- A valid unfragmented ICMP packet to the device MAC is handed to
`process_icmp` with the buffer as received. -/
theorem process_pkt_icmp {X : Type} (env : Env X) (s : Store X)
    (hdst : mac_eq s.pkt 0 s.mac) (htype : be16 s.pkt 12 = 0x0800)
    (hfrag : be16 s.pkt 20 % 2 ^ 14 = 0)
    (hck : rd16 s.pkt 24 = rd16 (ip_check env s.pkt 14) 24)
    (hproto : rd8 s.pkt 23 = IP_ICMP_PROTOCOL) :
    process_pkt env s = process_icmp env s 0 14 (14 + 4 * ihl s.pkt) := by
  have h12 := rd8_lt s.pkt 12
  have h13 := rd8_lt s.pkt 13
  simp only [be16, Nat.reduceAdd] at htype
  simp only [Nat.reducePow] at hfrag
  simp only [process_pkt, memcmp_mac, Nat.zero_add]
  rw [if_neg (by omega), if_pos hdst]
  simp only [process_mine, Nat.zero_add, ntohs_rd16, and_3fff, and_15, ETHER_H_LEN, Nat.reduceAdd,
    Nat.add_zero]
  rw [if_neg (by omega), if_neg (by omega), if_neg (by simpa using hck),
    ip_check_restore env s.pkt 14 hck, if_neg (by rw [hproto]; decide), if_pos hproto]
  rfl

/-- The verification step of `process_icmp` on an even-length packet computes the
checksum of exactly the ICMP message. -/
theorem icmp_check_even {X : Type} (env : Env X) (pkt : Mem)
    (hi : 1 ≤ ihl pkt) (he : be16 pkt 16 % 2 = 0) (hl : 4 * ihl pkt ≤ be16 pkt 16) :
    icmp_check env pkt 14 (14 + 4 * ihl pkt)
      = wr16 (wr16 pkt (14 + 4 * ihl pkt + 2) 0) (14 + 4 * ihl pkt + 2)
          (env.checksum (wr16 pkt (14 + 4 * ihl pkt + 2) 0) (14 + 4 * ihl pkt)
            ((icmp_len pkt / 2 : Nat) : Int) (icmp_len pkt % 2)) := by
  have e16 : rd8 (wr16 pkt (14 + 4 * ihl pkt + 2) 0) 16 = rd8 pkt 16 := by
    simp only [rd8_wr16]; rw [if_neg (by omega), if_neg (by omega)]
  have e17 : rd8 (wr16 pkt (14 + 4 * ihl pkt + 2) 0) 17 = rd8 pkt 17 := by
    simp only [rd8_wr16]; rw [if_neg (by omega), if_neg (by omega)]
  have e14 : rd8 (wr16 pkt (14 + 4 * ihl pkt + 2) 0) 14 = rd8 pkt 14 := by
    simp only [rd8_wr16]; rw [if_neg (by omega), if_neg (by omega)]
  have eL : be16 (wr16 pkt (14 + 4 * ihl pkt + 2) 0) 16 = be16 pkt 16 := by
    simp only [be16, Nat.reduceAdd, e16, e17]
  simp only [icmp_check, ntohs_rd16, Nat.reduceAdd, Nat.add_zero, eL, e14]
  rw [icmp_check_count_even _ _ he hl]
  have : icmp_len pkt % 2 = be16 pkt 16 % 2 := by
    unfold icmp_len; unfold ihl at hl ⊢; omega
  rw [this]
  rfl

theorem bytes_congr (m m' : Mem) (a b n : Nat) (h : ∀ k, k < n → rd8 m (a + k) = rd8 m' (b + k)) :
    bytes m a n = bytes m' b n := by
  unfold bytes
  apply List.map_congr_left
  intro k hk
  exact h k (List.mem_range.1 hk)

/-- The bytes of the reply that `icmp_reply` builds, for a header of at least five
words: type 0, the two MAC addresses exchanged, the two IP addresses exchanged,
and everything else but the two checksum fields as in the request. -/
theorem icmp_reply_bytes {X : Type} (env : Env X) (pkt : Mem) (n : Nat) (hn : 5 ≤ n) :
    rd8 (icmp_reply env pkt 0 14 (14 + 4 * n)) (14 + 4 * n) = 0
    ∧ bytes (icmp_reply env pkt 0 14 (14 + 4 * n)) 0 6 = bytes pkt 6 6
    ∧ bytes (icmp_reply env pkt 0 14 (14 + 4 * n)) 6 6 = bytes pkt 0 6
    ∧ bytes (icmp_reply env pkt 0 14 (14 + 4 * n)) 12 12 = bytes pkt 12 12
    ∧ bytes (icmp_reply env pkt 0 14 (14 + 4 * n)) 26 4 = bytes pkt 30 4
    ∧ bytes (icmp_reply env pkt 0 14 (14 + 4 * n)) 30 4 = bytes pkt 26 4
    ∧ rd8 (icmp_reply env pkt 0 14 (14 + 4 * n)) (14 + 4 * n + 1) = rd8 pkt (14 + 4 * n + 1)
    ∧ ∀ i, 14 + 4 * n + 4 ≤ i → rd8 (icmp_reply env pkt 0 14 (14 + 4 * n)) i = rd8 pkt i := by
  refine ⟨?_, ?_, ?_, ?_, ?_, ?_, ?_, ?_⟩
  · simp only [icmp_reply, rd8_wr16, rd8_wr8, rd8_memcpy_16bit]
    repeat (first | rfl | rw [if_neg (by omega)] | rw [if_pos (by omega)])
  · apply bytes_congr
    intro k hk
    simp only [icmp_reply, rd8_wr16, rd8_wr8, rd8_memcpy_16bit]
    repeat (first | rw [if_neg (by omega)] | rw [if_pos (by omega)])
    congr 1
    omega
  · apply bytes_congr
    intro k hk
    simp only [icmp_reply, rd8_wr16, rd8_wr8, rd8_memcpy_16bit]
    repeat (first | rw [if_neg (by omega)] | rw [if_pos (by omega)])
    congr 1
    omega
  · apply bytes_congr
    intro k hk
    simp only [icmp_reply, rd8_wr16, rd8_wr8, rd8_memcpy_16bit]
    repeat (first | rfl | rw [if_neg (by omega)])
  · apply bytes_congr
    intro k hk
    simp only [icmp_reply, rd8_wr16, rd8_wr8, rd8_memcpy_16bit]
    repeat (first | rw [if_neg (by omega)] | rw [if_pos (by omega)])
    congr 1
    omega
  · apply bytes_congr
    intro k hk
    simp only [icmp_reply, rd8_wr16, rd8_wr8, rd8_memcpy_16bit]
    repeat (first | rw [if_neg (by omega)] | rw [if_pos (by omega)])
    congr 1
    omega
  · simp only [icmp_reply, rd8_wr16, rd8_wr8, rd8_memcpy_16bit]
    repeat (first | rfl | rw [if_neg (by omega)])
  · intro i hi
    simp only [icmp_reply, rd8_wr16, rd8_wr8, rd8_memcpy_16bit]
    repeat (first | rfl | rw [if_neg (by omega)])

/-- The run of `process_pkt` on an echo request of even total length with a header
of at least one word, a valid header checksum and an ICMP checksum that is correct
over the ICMP message: the verification succeeds and the reply is built and
transmitted. -/
theorem echo_even_run {X : Type} (env : Env X) (s : Store X)
    (hdst : mac_eq s.pkt 0 s.mac) (htype : be16 s.pkt 12 = 0x0800)
    (hfrag : be16 s.pkt 20 % 2 ^ 14 = 0)
    (hck : rd16 s.pkt 24 = rd16 (ip_check env s.pkt 14) 24)
    (hproto : rd8 s.pkt 23 = IP_ICMP_PROTOCOL)
    (h8 : rd8 s.pkt (14 + 4 * ihl s.pkt) = 8)
    (hi : 1 ≤ ihl s.pkt) (he : be16 s.pkt 16 % 2 = 0) (hl : 4 * ihl s.pkt ≤ be16 s.pkt 16)
    (hc : icmp_checksum_correct env s.pkt) :
    process_pkt env s
      = ⟨{ s with pkt := icmp_reply env s.pkt 0 14 (14 + 4 * ihl s.pkt) },
          [Event.tx (frame (icmp_reply env s.pkt 0 14 (14 + 4 * ihl s.pkt))
            (14 + ntohs (rd16 (icmp_reply env s.pkt 0 14 (14 + 4 * ihl s.pkt)) (14 + 2))))],
          false⟩ := by
  have hchk : rd16 s.pkt (14 + 4 * ihl s.pkt + 2)
      = rd16 (icmp_check env s.pkt 14 (14 + 4 * ihl s.pkt)) (14 + 4 * ihl s.pkt + 2) := by
    rw [icmp_check_even env s.pkt hi he hl, rd16_wr16_same]
    exact hc
  have hrestore : icmp_check env s.pkt 14 (14 + 4 * ihl s.pkt) = s.pkt := by
    unfold icmp_check at hchk ⊢
    exact wr16_restore_of_eq _ _ _ hchk
  rw [process_pkt_icmp env s hdst htype hfrag hck hproto]
  simp only [process_icmp, Nat.add_zero, ETHER_H_LEN]
  rw [if_pos h8, if_neg (by simpa using hchk), hrestore]

theorem icmp_reply_len {X : Type} (env : Env X) (pkt : Mem) (n : Nat) (hn : 5 ≤ n) :
    rd8 (icmp_reply env pkt 0 14 (14 + 4 * n)) 16 = rd8 pkt 16
    ∧ rd8 (icmp_reply env pkt 0 14 (14 + 4 * n)) 17 = rd8 pkt 17 := by
  constructor
  · simp only [icmp_reply, rd8_wr16, rd8_wr8, rd8_memcpy_16bit]
    repeat (first | rfl | rw [if_neg (by omega)])
  · simp only [icmp_reply, rd8_wr16, rd8_wr8, rd8_memcpy_16bit]
    repeat (first | rfl | rw [if_neg (by omega)])

/-- An echo request of even total length with a header of at least five words, a
valid header checksum and an ICMP checksum that is correct over the ICMP message
is answered: the one call is the transmission of `14 + total length` bytes of the
receive buffer, in which the ICMP type is 0, the MAC addresses and the IP
addresses are exchanged, and the EtherType, the first ten header bytes, the ICMP
code and everything after the ICMP checksum are as in the request. -/
theorem echo_even_answered {X : Type} (env : Env X) (s : Store X)
    (hdst : mac_eq s.pkt 0 s.mac) (htype : be16 s.pkt 12 = 0x0800)
    (hfrag : be16 s.pkt 20 % 2 ^ 14 = 0)
    (hck : rd16 s.pkt 24 = rd16 (ip_check env s.pkt 14) 24)
    (hproto : rd8 s.pkt 23 = IP_ICMP_PROTOCOL)
    (h8 : rd8 s.pkt (14 + 4 * ihl s.pkt) = 8)
    (hi : 5 ≤ ihl s.pkt) (he : be16 s.pkt 16 % 2 = 0) (hl : 4 * ihl s.pkt ≤ be16 s.pkt 16)
    (hc : icmp_checksum_correct env s.pkt) :
    (process_pkt env s).events
        = [Event.tx (frame (process_pkt env s).st.pkt (14 + be16 s.pkt 16))]
    ∧ rd8 (process_pkt env s).st.pkt (14 + 4 * ihl s.pkt) = 0
    ∧ bytes (process_pkt env s).st.pkt 0 6 = bytes s.pkt 6 6
    ∧ bytes (process_pkt env s).st.pkt 6 6 = bytes s.pkt 0 6
    ∧ bytes (process_pkt env s).st.pkt 12 12 = bytes s.pkt 12 12
    ∧ bytes (process_pkt env s).st.pkt 26 4 = bytes s.pkt 30 4
    ∧ bytes (process_pkt env s).st.pkt 30 4 = bytes s.pkt 26 4
    ∧ rd8 (process_pkt env s).st.pkt (14 + 4 * ihl s.pkt + 1) = rd8 s.pkt (14 + 4 * ihl s.pkt + 1)
    ∧ ∀ i, 14 + 4 * ihl s.pkt + 4 ≤ i → rd8 (process_pkt env s).st.pkt i = rd8 s.pkt i := by
  obtain ⟨b0, b1, b2, b3, b4, b5, b6, b7⟩ := icmp_reply_bytes env s.pkt (ihl s.pkt) hi
  obtain ⟨l0, l1⟩ := icmp_reply_len env s.pkt (ihl s.pkt) hi
  have hlen : ntohs (rd16 (icmp_reply env s.pkt 0 14 (14 + 4 * ihl s.pkt)) (14 + 2))
      = be16 s.pkt 16 := by
    rw [ntohs_rd16]
    simp only [be16, Nat.reduceAdd, l0, l1]
  rw [echo_even_run env s hdst htype hfrag hck hproto h8 (by omega) he hl hc]
  simp only [hlen]
  exact ⟨trivial, b0, b1, b2, b3, b4, b5, b6, b7⟩

theorem wr16_wr16 (m : Mem) (a x y : Nat) : wr16 (wr16 m a x) a y = wr16 m a y := by
  apply mem_ext
  intro i
  simp only [rd8_wr16]
  split
  · rfl
  · split <;> rfl

theorem icmp_counts_even (L v : Nat) (he : L % 2 = 0) :
    icmp_check_count L v = icmp_reply_count L v := by
  unfold icmp_check_count icmp_reply_count
  rw [Int.tdiv_eq_ediv (by omega) (by decide), Int.tdiv_eq_ediv (by omega) (by decide)]
  omega

/-- For an even total length the verification step of `process_icmp` accepts the
reply that `icmp_reply` builds, whatever the checksum routine. -/
theorem icmp_reply_recheck_even {X : Type} (env : Env X) (pkt : Mem) (ether ip icmp : Nat)
    (he : be16 (wr16 (icmp_reply env pkt ether ip icmp) (icmp + 2) 0) (ip + 2) % 2 = 0) :
    rd16 (icmp_reply env pkt ether ip icmp) (icmp + 2)
      = rd16 (icmp_check env (icmp_reply env pkt ether ip icmp) ip icmp) (icmp + 2) := by
  have key : icmp_check env (icmp_reply env pkt ether ip icmp) ip icmp
      = icmp_reply env pkt ether ip icmp := by
    rw [← ntohs_rd16] at he
    revert he
    simp only [icmp_reply, icmp_check, wr16_wr16]
    intro he
    rw [icmp_counts_even _ _ he]
  rw [key]

theorem oc_sum_congr (m m' : Mem) (n : Nat) : ∀ (a sum : Nat),
    (∀ i, a ≤ i → i < a + 2 * n → rd8 m i = rd8 m' i) → oc_sum m a n sum = oc_sum m' a n sum := by
  induction n with
  | zero => intro a sum _; rfl
  | succ n ih =>
    intro a sum h
    simp only [oc_sum]
    have e : rd16 m a = rd16 m' a := by
      unfold rd16
      rw [h a (by omega) (by omega), h (a + 1) (by omega) (by omega)]
    rw [e]
    exact ih (a + 2) _ (fun i h1 h2 => h i (by omega) (by omega))

/-- The checksum over whole words depends on the bytes of those words only. -/
theorem checksum_congr (m m' : Mem) (a : Nat) (count : Int)
    (h : ∀ i, a ≤ i → i < a + 2 * count.toNat → rd8 m i = rd8 m' i) :
    checksum m a count 0 = checksum m' a count 0 := by
  simp only [checksum, ne_eq, not_true_eq_false, if_false]
  rw [oc_sum_congr m m' _ a 0 h]

theorem rd16_wr16_other (m : Mem) (a v b : Nat) (h : b + 1 < a ∨ a + 1 < b) :
    rd16 (wr16 m a v) b = rd16 m b := by
  simp only [rd16, rd8_wr16]
  rw [if_neg (by omega), if_neg (by omega), if_neg (by omega), if_neg (by omega)]

/-- With the checksum routine of the spec and a header of at least three words,
the header checksum stored in the reply that `icmp_reply` builds is the checksum
recomputed over the reply's header with the field zeroed. -/
theorem icmp_reply_ip_recheck {X : Type} (env : Env X) (hspec : env.checksum = checksum)
    (pkt : Mem) (n : Nat) (hn : 3 ≤ n) (hv : rd8 pkt 14 % 16 ≤ n) :
    rd16 (icmp_reply env pkt 0 14 (14 + 4 * n)) 24
      = rd16 (ip_check env (icmp_reply env pkt 0 14 (14 + 4 * n)) 14) 24 := by
  have hv14 : ∀ P : Mem, rd8 P 14 = rd8 pkt 14 → (rd8 P 14 &&& 15) = rd8 pkt 14 % 16 := by
    intro P hP
    rw [and_15, hP]
  unfold ip_check
  unfold icmp_reply
  lift_lets
  intro pkt3 tmp pkt4 pkt5 i2 pkt6 pkt7 pkt8 pkt9 pkt10 P1
  have h8 : rd8 pkt8 14 = rd8 pkt 14 := by
    simp only [pkt8, pkt7, pkt6, i2, pkt5, pkt4, tmp, pkt3, rd8_wr16, rd8_wr8, rd8_memcpy_16bit]
    repeat (first | rfl | rw [if_neg (by omega)])
  have hP : rd8 P1 14 = rd8 pkt 14 := by
    rw [← h8]
    simp only [P1, pkt10, pkt9, rd8_wr16]
    repeat (first | rfl | rw [if_neg (by omega)])
  rw [rd16_wr16_other _ _ _ _ (by omega)]
  have h10 : rd16 pkt10 24 = rd16 pkt9 24 := rd16_wr16_other _ _ _ _ (by omega)
  rw [h10]
  simp only [Nat.reduceAdd, Nat.add_zero]
  have h9 : rd16 pkt9 24 = env.checksum pkt8 14 (2 * ((rd8 pkt8 14 &&& 15 : Nat) : Int)) 0 % 65536 :=
    rd16_wr16_same _ _ _
  rw [h9, rd16_wr16_same, hspec]
  congr 1
  rw [hv14 _ hP, hv14 _ h8]
  apply checksum_congr
  intro i h1 h2
  have h2' : i < 14 + 4 * n := by
    have : (2 * ((rd8 pkt 14 % 16 : Nat) : Int)).toNat = 2 * (rd8 pkt 14 % 16) := by omega
    rw [this] at h2
    omega
  simp only [P1, pkt10, pkt9, pkt8, rd8_wr16, Nat.reduceAdd]
  by_cases h24 : i = 24
  · rw [if_pos h24, if_pos h24]
  · rw [if_neg h24, if_neg h24]
    by_cases h25 : i = 25
    · rw [if_pos h25, if_pos h25]
    · rw [if_neg h25, if_neg h25, if_neg (by omega), if_neg (by omega), if_neg h24, if_neg h25,
        if_neg (by omega), if_neg (by omega)]

/-- With the checksum routine of the spec, the reply to an echo request of even
total length passes both verification steps of the responder: its stored header
checksum and its stored ICMP checksum equal the recomputed ones. -/
theorem echo_even_reply_rechecks {X : Type} (env : Env X) (hspec : env.checksum = checksum)
    (s : Store X)
    (hdst : mac_eq s.pkt 0 s.mac) (htype : be16 s.pkt 12 = 0x0800)
    (hfrag : be16 s.pkt 20 % 2 ^ 14 = 0)
    (hck : rd16 s.pkt 24 = rd16 (ip_check env s.pkt 14) 24)
    (hproto : rd8 s.pkt 23 = IP_ICMP_PROTOCOL)
    (h8 : rd8 s.pkt (14 + 4 * ihl s.pkt) = 8)
    (hi : 5 ≤ ihl s.pkt) (he : be16 s.pkt 16 % 2 = 0) (hl : 4 * ihl s.pkt ≤ be16 s.pkt 16)
    (hc : icmp_checksum_correct env s.pkt) :
    rd16 (process_pkt env s).st.pkt 24 = rd16 (ip_check env (process_pkt env s).st.pkt 14) 24
    ∧ rd16 (process_pkt env s).st.pkt (14 + 4 * ihl s.pkt + 2)
        = rd16 (icmp_check env (process_pkt env s).st.pkt 14 (14 + 4 * ihl s.pkt))
            (14 + 4 * ihl s.pkt + 2) := by
  obtain ⟨l0, l1⟩ := icmp_reply_len env s.pkt (ihl s.pkt) hi
  rw [echo_even_run env s hdst htype hfrag hck hproto h8 (by omega) he hl hc]
  refine ⟨icmp_reply_ip_recheck env hspec s.pkt (ihl s.pkt) (by omega) (le_refl _), ?_⟩
  apply icmp_reply_recheck_even
  simp only [be16, Nat.reduceAdd, rd8_wr16]
  rw [if_neg (by omega), if_neg (by omega), if_neg (by omega), if_neg (by omega), l0, l1]
  simpa only [be16, Nat.reduceAdd] using he

/-- The even-length sample request meets the conditions of `echo_even_answered`
and of `echo_even_reply_rechecks`; the reply is transmitted and passes both
verification steps. -/
theorem echo_even_sample :
    icmp_len echoEvenStore.pkt = 26
    ∧ icmp_checksum_correct (sampleEnv true) echoEvenStore.pkt
    ∧ (process_pkt (sampleEnv true) echoEvenStore).events
        = [Event.tx (frame (process_pkt (sampleEnv true) echoEvenStore).st.pkt
            (14 + be16 echoEvenStore.pkt 16))]
    ∧ rd16 (process_pkt (sampleEnv true) echoEvenStore).st.pkt 36
        = rd16 (icmp_check (sampleEnv true)
            (process_pkt (sampleEnv true) echoEvenStore).st.pkt 14 34) 36 :=
  ⟨by decide, by decide,
    (echo_even_answered (sampleEnv true) echoEvenStore (by decide) (by decide) (by decide)
      (by decide) (by decide) (by decide) (by decide) (by decide) (by decide) (by decide)).1,
    (echo_even_reply_rechecks (sampleEnv true) rfl echoEvenStore (by decide) (by decide)
      (by decide) (by decide) (by decide) (by decide) (by decide) (by decide) (by decide)
      (by decide)).2⟩

/-- C3, at an input where the code departs from it.  The frame `echoOdd` is an
unfragmented IPv4 packet to the device MAC with a valid header checksum, protocol
ICMP, type 8 and an ICMP checksum that is correct over the 27 bytes of the ICMP
message; with the checksum routine of the spec, `process_pkt` transmits nothing:
the verification call sums `(47 + 1) / 2 - 10 = 14` words and the odd byte, which
is two bytes more than the message.  (For even lengths the reply is transmitted,
`echo_even_answered`.) -/
theorem echo_odd_dropped :
    mac_eq echoOddStore.pkt 0 echoOddStore.mac
    ∧ be16 echoOddStore.pkt 12 = 0x0800
    ∧ be16 echoOddStore.pkt 20 % 2 ^ 14 = 0
    ∧ rd16 echoOddStore.pkt 24 = rd16 (ip_check (sampleEnv true) echoOddStore.pkt 14) 24
    ∧ rd8 echoOddStore.pkt 23 = IP_ICMP_PROTOCOL
    ∧ rd8 echoOddStore.pkt (14 + 4 * ihl echoOddStore.pkt) = 8
    ∧ icmp_len echoOddStore.pkt = 27
    ∧ icmp_checksum_correct (sampleEnv true) echoOddStore.pkt
    ∧ (process_pkt (sampleEnv true) echoOddStore).events = [] := by
  decide

/-- C4, at an input where the code departs from it.  For the frame
`echoOddAccepted`, with the checksum routine of the spec, `process_pkt` transmits
an echo reply of 61 bytes from the receive buffer; the stored IPv4 header
checksum of the reply equals the recomputed one, but the verification step of
`process_icmp`, run on the reply, computes an ICMP checksum other than the stored
one: the reply's checksum was generated over `47 / 2 - 10 = 13` words and the odd
byte, and is verified over 14 words and the odd byte.  (For even lengths both
checks succeed, `echo_even_reply_rechecks`.) -/
theorem echo_odd_reply_recheck_fails :
    (process_pkt (sampleEnv true) echoOddAcceptedStore).events
      = [Event.tx (frame (process_pkt (sampleEnv true) echoOddAcceptedStore).st.pkt 61)]
    ∧ rd8 (process_pkt (sampleEnv true) echoOddAcceptedStore).st.pkt 34 = 0
    ∧ rd16 (process_pkt (sampleEnv true) echoOddAcceptedStore).st.pkt 24
        = rd16 (ip_check (sampleEnv true)
            (process_pkt (sampleEnv true) echoOddAcceptedStore).st.pkt 14) 24
    ∧ rd16 (process_pkt (sampleEnv true) echoOddAcceptedStore).st.pkt 36
        ≠ rd16 (icmp_check (sampleEnv true)
            (process_pkt (sampleEnv true) echoOddAcceptedStore).st.pkt 14 34) 36 := by
  decide

/-! ## The word counts of the checksum calls -/

/-- The generation call of `process_icmp` covers exactly the ICMP message, for even
and for odd total lengths. -/
theorem icmp_reply_count_covers (L v : Nat) (hl : 4 * (v % 16) ≤ L) :
    2 * icmp_reply_count L v + ((L % 2 : Nat) : Int) = ((L - 4 * (v % 16) : Nat) : Int) := by
  unfold icmp_reply_count
  rw [and_15, Int.tdiv_eq_ediv (by omega) (by decide)]
  omega

/-- The verification call of `process_icmp` covers exactly the ICMP message when
the total length is even. -/
theorem icmp_check_count_covers_even (L v : Nat) (hl : 4 * (v % 16) ≤ L) (he : L % 2 = 0) :
    2 * icmp_check_count L v + ((L % 2 : Nat) : Int) = ((L - 4 * (v % 16) : Nat) : Int) := by
  unfold icmp_check_count
  rw [and_15, Int.tdiv_eq_ediv (by omega) (by decide)]
  omega

/-- The verification call of `process_icmp` covers two bytes more than the ICMP
message when the total length is odd. -/
theorem icmp_check_count_odd (L v : Nat) (hl : 4 * (v % 16) ≤ L) (ho : L % 2 = 1) :
    2 * icmp_check_count L v + ((L % 2 : Nat) : Int)
      = ((L - 4 * (v % 16) : Nat) : Int) + 2 := by
  unfold icmp_check_count
  rw [and_15, Int.tdiv_eq_ediv (by omega) (by decide)]
  omega

/-- C11, at an input where the code departs from it.  For the frame `echoOdd`
(total length 47, header length 5, so an ICMP message of 27 bytes) the generation
call of `process_icmp` passes 13 words and the odd-byte flag, 27 bytes, but the
verification call passes 14 words and the odd-byte flag, 29 bytes.  (The general
facts are `icmp_reply_count_covers`, `icmp_check_count_covers_even` and
`icmp_check_count_odd`.) -/
theorem icmp_counts_odd_sample :
    be16 echoOddStore.pkt 16 = 47
    ∧ ihl echoOddStore.pkt = 5
    ∧ 4 * ihl echoOddStore.pkt ≤ be16 echoOddStore.pkt 16
    ∧ 2 * icmp_reply_count (ntohs (rd16 echoOddStore.pkt 16)) (rd8 echoOddStore.pkt 14)
        + ((ntohs (rd16 echoOddStore.pkt 16) % 2 : Nat) : Int) = 27
    ∧ 2 * icmp_check_count (ntohs (rd16 echoOddStore.pkt 16)) (rd8 echoOddStore.pkt 14)
        + ((ntohs (rd16 echoOddStore.pkt 16) % 2 : Nat) : Int) = 29 := by
  decide

/-- The word count and the odd-byte flag of the `checksum_udp` call, as numbers:
for a UDP length field `U` of at least 8 the C expression `(U - 8)/2` is the
natural number `(U - 8) / 2`, and twice it plus `U % 2` is `U - 8`. -/
theorem udp_count_arith (U : Nat) (h : 8 ≤ U) :
    udp_count U = (((U - 8) / 2 : Nat) : Int)
    ∧ 2 * udp_count U + ((U % 2 : Nat) : Int) = (U : Int) - 8 := by
  unfold udp_count
  rw [Int.tdiv_eq_ediv (by omega) (by decide)]
  omega

/-- C14. For a datagram whose UDP length field `U` is at least 8 and whose
checksum field is not 0, the value that `process_udp` compares with the stored
checksum is the result of the call of `checksum_udp` on the pseudo header and the
payload with the word count `n = (U - 8) / 2` and the odd-byte flag `o = U % 2`,
and the outcome of `process_udp` is decided by that value; the two arguments
satisfy `2 * n + o = U - 8`, the length of the payload, the last byte of an
odd-length payload included. -/
theorem udp_count_covers {X : Type} (env : Env X) (s : Store X) (ether ip udp : Nat)
    (hU : 8 ≤ be16 s.pkt (udp + 4)) (hF : rd16 s.pkt (udp + 6) ≠ 0) :
    2 * ((be16 s.pkt (udp + 4) - 8) / 2) + be16 s.pkt (udp + 4) % 2 = be16 s.pkt (udp + 4) - 8
    ∧ udp_computed env s ip udp
        = env.checksum_udp (udp_pseudo s.pkt_buf s.pkt ip udp) s.pkt (udp + 8)
            (((be16 s.pkt (udp + 4) - 8) / 2 : Nat) : Int) (be16 s.pkt (udp + 4) % 2) % 65536
    ∧ process_udp env s ether ip udp
        = if env.checksum_udp (udp_pseudo s.pkt_buf s.pkt ip udp) s.pkt (udp + 8)
              (((be16 s.pkt (udp + 4) - 8) / 2 : Nat) : Int) (be16 s.pkt (udp + 4) % 2) % 65536
              = (if rd16 s.pkt (udp + 6) = 0xffff then 0 else rd16 s.pkt (udp + 6))
          then udp_dispatch env (udp_validate env s ip udp).1 ether udp
          else ret (udp_validate env s ip udp).1 := by
  have hc : udp_computed env s ip udp
      = env.checksum_udp (udp_pseudo s.pkt_buf s.pkt ip udp) s.pkt (udp + 8)
          (((be16 s.pkt (udp + 4) - 8) / 2 : Nat) : Int) (be16 s.pkt (udp + 4) % 2) % 65536 := by
    unfold udp_computed
    rw [ntohs_rd16, (udp_count_arith _ hU).1]
  refine ⟨by omega, hc, ?_⟩
  have hv : (udp_validate env s ip udp).2
      = decide (udp_computed env s ip udp
          = (if rd16 s.pkt (udp + 6) = 0xffff then 0 else rd16 s.pkt (udp + 6))) := by
    simp only [udp_validate, if_pos hF]
    by_cases hf : rd16 s.pkt (udp + 6) = 0xffff
    · simp only [hf, if_true, rd16_wr16_zero]
    · simp only [hf, if_false]
  rw [← hc]
  simp only [process_udp, hv]
  by_cases he : udp_computed env s ip udp
      = (if rd16 s.pkt (udp + 6) = 0xffff then 0 else rd16 s.pkt (udp + 6))
  · simp [he]
  · simp [he]

/-- The datagram `udpOdd` has UDP length 15 and a checksum field that is not 0: the
call covers three words and the odd byte, seven bytes in all, and the datagram,
whose checksum is right over exactly these seven bytes, passes the validation. -/
theorem udp_count_covers_witness :
    be16 udpOddStore.pkt (34 + 4) = 15
    ∧ rd16 udpOddStore.pkt (34 + 6) ≠ 0
    ∧ (udp_validate (sampleEnv true) udpOddStore 14 34).2 = true
    ∧ (2 * ((be16 udpOddStore.pkt (34 + 4) - 8) / 2) + be16 udpOddStore.pkt (34 + 4) % 2
        = be16 udpOddStore.pkt (34 + 4) - 8
      ∧ udp_computed (sampleEnv true) udpOddStore 14 34
          = (sampleEnv true).checksum_udp (udp_pseudo udpOddStore.pkt_buf udpOddStore.pkt 14 34)
              udpOddStore.pkt (34 + 8)
              (((be16 udpOddStore.pkt (34 + 4) - 8) / 2 : Nat) : Int)
              (be16 udpOddStore.pkt (34 + 4) % 2) % 65536
      ∧ process_udp (sampleEnv true) udpOddStore 0 14 34
          = if (sampleEnv true).checksum_udp
                (udp_pseudo udpOddStore.pkt_buf udpOddStore.pkt 14 34) udpOddStore.pkt (34 + 8)
                (((be16 udpOddStore.pkt (34 + 4) - 8) / 2 : Nat) : Int)
                (be16 udpOddStore.pkt (34 + 4) % 2) % 65536
                = (if rd16 udpOddStore.pkt (34 + 6) = 0xffff then 0
                   else rd16 udpOddStore.pkt (34 + 6))
            then udp_dispatch (sampleEnv true) (udp_validate (sampleEnv true) udpOddStore 14 34).1
              0 34
            else ret (udp_validate (sampleEnv true) udpOddStore 14 34).1) :=
  ⟨by decide, by decide, by decide,
    udp_count_covers (sampleEnv true) udpOddStore 0 14 34 (by decide) (by decide)⟩

/-! ## The fragmentation check -/

/-- The path of `process_mine`: a frame whose second EtherType byte is not 0 or
whose fragmentation check value is not 0 is dropped, every other frame goes on to
the header-checksum verification and the protocol dispatch. -/
theorem process_mine_eq {X : Type} (env : Env X) (s : Store X) :
    process_mine env s
      = if rd8 s.pkt 13 ≠ 0 ∨ frag_check s.pkt ≠ 0 then ret s else process_mine_checked env s := by
  simp only [process_mine, process_mine_checked, frag_check, Nat.zero_add]
  by_cases h13 : rd8 s.pkt 13 = 0
  · by_cases hf : ntohs (rd16 s.pkt (ETHER_H_LEN + 6)) &&& 0x3fff = 0
    · simp [h13, hf]
    · simp [h13, hf]
  · simp [h13]

theorem frag_check_eq (pkt : Mem) : frag_check pkt = be16 pkt 20 % 16384 := by
  simp only [frag_check, ETHER_H_LEN, Nat.reduceAdd, ntohs_rd16, and_3fff]

/-- The fragmentation check value is 0 exactly when the fragment offset is zero
and the more-fragments flag is clear. -/
theorem frag_check_zero_iff (pkt : Mem) :
    frag_check pkt = 0 ↔ frag_offset pkt = 0 ∧ more_fragments pkt = 0 := by
  rw [frag_check_eq]
  unfold frag_offset more_fragments
  omega

/-- A frame whose second EtherType byte is 0, whose fragment offset is zero and
whose more-fragments flag is clear is let past: `process_mine` goes on to the
header-checksum verification and the protocol dispatch. -/
theorem frag_check_lets_past {X : Type} (env : Env X) (s : Store X)
    (h13 : rd8 s.pkt 13 = 0) (ho : frag_offset s.pkt = 0) (hm : more_fragments s.pkt = 0) :
    process_mine env s = process_mine_checked env s := by
  rw [process_mine_eq, if_neg]
  simp [h13, (frag_check_zero_iff s.pkt).2 ⟨ho, hm⟩]

/-- A packet with a nonzero fragment offset or with the more-fragments flag set is
dropped at the check: `process_mine` returns at once, without a call and with
memory unchanged. -/
theorem frag_check_drops {X : Type} (env : Env X) (s : Store X)
    (h : frag_offset s.pkt ≠ 0 ∨ more_fragments s.pkt ≠ 0) :
    process_mine env s = ret s := by
  rw [process_mine_eq, if_pos]
  right
  intro h0
  have := (frag_check_zero_iff s.pkt).1 h0
  omega

/-- A packet that is let past shows: with a checksum routine that never returns
the stored header checksum, the run of `process_mine` on it differs from an
immediate return.  So the packets on which some run of `process_mine` differs
from an immediate return are exactly the packets that are let past. -/
theorem let_past_shows {X : Type} (s : Store X)
    (h13 : rd8 s.pkt 13 = 0) (ho : frag_offset s.pkt = 0) (hm : more_fragments s.pkt = 0) :
    ∃ env : Env X, process_mine env s ≠ ret s := by
  refine ⟨{ checksum := fun _ _ _ _ => rd16 s.pkt 24 + 1
            checksum_udp := fun _ _ _ _ _ => 0
            make_ether := fun _ _ _ b => b
            handle_dhcp_reply := fun _ _ _ t => (t, true)
            handler := fun _ _ t => t
            DHCP_OP_BOOTREPLY := 2
            CMD := fun _ => 0 }, ?_⟩
  rw [frag_check_lets_past _ s h13 ho hm]
  have hlt := rd16_lt s.pkt 24
  have hne : rd16 s.pkt 24 ≠ (rd16 s.pkt 24 + 1) % 65536 := by omega
  simp only [process_mine_checked, ip_check, ETHER_H_LEN, Nat.reduceAdd, rd16_wr16_same]
  rw [if_pos (by simpa using hne)]
  intro heq
  have h24 := congrArg (fun o : Out X => rd16 o.st.pkt 24) heq
  simp only [ret, rd16_wr16_same] at h24
  exact hne h24.symm

/-- C12, as amended.  Every packet that `process_mine` lets past its
fragmentation check has fragment offset zero and the more-fragments flag clear:
whenever the run of `process_mine` is anything but an immediate return (any call,
any store to memory), the two fields are zero, and the run is the header-checksum
verification and the protocol dispatch.  (The don't-fragment flag is not part of
the check.) -/
theorem frag_check_passed {X : Type} (env : Env X) (s : Store X)
    (h : process_mine env s ≠ ret s) :
    frag_offset s.pkt = 0 ∧ more_fragments s.pkt = 0
    ∧ process_mine env s = process_mine_checked env s := by
  rw [process_mine_eq] at h ⊢
  by_cases hc : rd8 s.pkt 13 ≠ 0 ∨ frag_check s.pkt ≠ 0
  · rw [if_pos hc] at h
    exact absurd rfl h
  · rw [if_neg hc]
    have hf : frag_check s.pkt = 0 := by
      by_contra h0
      exact hc (Or.inr h0)
    obtain ⟨ho, hm⟩ := (frag_check_zero_iff s.pkt).1 hf
    exact ⟨ho, hm, rfl⟩

/-- The echo request with the don't-fragment flag set is let past: the run
transmits a reply, and the two fields that the check covers are zero. -/
theorem frag_check_passed_witness :
    (process_mine (sampleEnv true) echoDFStore).events ≠ (ret echoDFStore).events
    ∧ frag_offset echoDFStore.pkt = 0 ∧ more_fragments echoDFStore.pkt = 0
    ∧ process_mine (sampleEnv true) echoDFStore = process_mine_checked (sampleEnv true) echoDFStore :=
  ⟨by decide,
    frag_check_passed (sampleEnv true) echoDFStore
      (fun h => absurd (congrArg Out.events h) (by decide))⟩

/-- C12 as stated fails: the echo request `echoDF` is let past the fragmentation
check of `process_mine` (it reaches the protocol dispatch and is answered with a
reply of 60 bytes), and its don't-fragment flag is set. -/
theorem frag_check_passes_df :
    rd8 echoDFStore.pkt 13 = 0 ∧ frag_check echoDFStore.pkt = 0
    ∧ (process_mine (sampleEnv true) echoDFStore).events
        = [Event.tx (frame (process_mine_checked (sampleEnv true) echoDFStore).st.pkt 60)]
    ∧ frag_offset echoDFStore.pkt = 0 ∧ more_fragments echoDFStore.pkt = 0
    ∧ ¬ dont_fragment echoDFStore.pkt = 0 := by
  decide

/-! ## The comparison chain without assumptions on the identifiers -/

theorem cmd_steps_zero {X : Type} (env : Env X) (udp : Nat) (cs : List Cmd) (o : Out X) :
    cmd_steps env udp cs (o, 0) = (o, 0) := by
  induction cs with
  | nil => rfl
  | cons c cs ih =>
    simp only [cmd_steps, cmd_step]
    rw [if_neg (by simp)]
    exact ih

/-- A chain of links started with a nonzero id calls the handler of the first
command of the list whose identifier is the id, clears the id, and calls nothing
else; without such a command it changes nothing. -/
theorem cmd_steps_spec {X : Type} (env : Env X) (udp : Nat) (id : Nat) (hid : id ≠ 0)
    (cs : List Cmd) (o : Out X) :
    cmd_steps env udp cs (o, id)
      = match cs.find? (fun c => decide (env.CMD c = id)) with
        | some c => (⟨env.handler c udp o.st, o.events ++ [Event.cmd c], o.halted⟩, 0)
        | none => (o, id) := by
  induction cs with
  | nil => rfl
  | cons c cs ih =>
    by_cases hc : env.CMD c = id
    · subst hc
      simp [cmd_steps, cmd_step, memcmp_32bit_eq, hid, cmd_steps_zero]
    · have hc' : ¬ id = env.CMD c := fun h => hc h.symm
      simp only [cmd_steps, cmd_step, memcmp_32bit_eq, List.find?_cons, hc, hc', decide_False,
        if_false]
      rw [if_neg (by simp)]
      exact ih

theorem cmd_order_eq :
    cmd_order = [Cmd.partbin, Cmd.donebin, Cmd.retval, Cmd.loadbin, Cmd.maple, Cmd.pmcr,
      Cmd.sendbinq, Cmd.sendbin, Cmd.execute, Cmd.version] ++ [Cmd.reboot] := rfl

/-- The command chain of `process_udp`, for any identifiers and any handlers: with
the id read before the chain, the handler of the first command in the order of
the chain whose identifier is the id is called, provided the id is not 0, and
nothing else is called. -/
theorem udp_dispatch_cmd {X : Type} (env : Env X) (s1 : Store X) (ether udp : Nat)
    (hd : rd8 s1.pkt (udp + 8) ≠ env.DHCP_OP_BOOTREPLY) :
    udp_dispatch env s1 ether udp
      = match (if rd32 s1.pkt (udp + 8) = 0 then none
               else first_match env (rd32 s1.pkt (udp + 8))) with
        | some c =>
          ⟨env.handler c udp
            { s1 with pkt_buf := env.make_ether s1.pkt (ether + 6) (ether + 0) s1.pkt_buf },
            [Event.cmd c], decide (c = Cmd.reboot)⟩
        | none =>
          ret { s1 with pkt_buf := env.make_ether s1.pkt (ether + 6) (ether + 0) s1.pkt_buf } := by
  have e : udp_dispatch env s1 ether udp
      = (cmd_step_reboot env udp (cmd_steps env udp
          [Cmd.partbin, Cmd.donebin, Cmd.retval, Cmd.loadbin, Cmd.maple, Cmd.pmcr,
            Cmd.sendbinq, Cmd.sendbin, Cmd.execute, Cmd.version]
          (ret { s1 with pkt_buf := env.make_ether s1.pkt (ether + 6) (ether + 0) s1.pkt_buf },
            rd32 s1.pkt (udp + 8)))).1 := by
    simp only [udp_dispatch, if_neg hd]
    rfl
  rw [e]
  by_cases hz : rd32 s1.pkt (udp + 8) = 0
  · rw [if_pos hz, hz, cmd_steps_zero]
    simp [cmd_step_reboot]
  · rw [if_neg hz, cmd_steps_spec env udp _ hz, first_match, cmd_order_eq, List.find?_append]
    cases hf : List.find? (fun c => decide (env.CMD c = rd32 s1.pkt (udp + 8)))
        [Cmd.partbin, Cmd.donebin, Cmd.retval, Cmd.loadbin, Cmd.maple, Cmd.pmcr,
          Cmd.sendbinq, Cmd.sendbin, Cmd.execute, Cmd.version] with
    | none =>
      by_cases hr : env.CMD Cmd.reboot = rd32 s1.pkt (udp + 8)
      · simp [cmd_step_reboot, memcmp_32bit_eq, hr, ret]
        rw [if_neg hz]
      · have hr' : ¬ rd32 s1.pkt (udp + 8) = env.CMD Cmd.reboot := fun h => hr h.symm
        simp [cmd_step_reboot, memcmp_32bit_eq, hr, hr']
    | some c =>
      have hm := List.mem_of_find?_eq_some hf
      have hne : c ≠ Cmd.reboot := by
        intro h
        subst h
        simp at hm
      simp [cmd_step_reboot, hne, ret]

theorem first_match_id {X : Type} (env : Env X) (id : Nat) (c : Cmd)
    (h : first_match env id = some c) : env.CMD c = id := by
  have := List.find?_some h
  simpa using this

/-- C13. For a validated payload that is not a DHCP reply, with any identifiers
(equal ones included) and any handlers, `process_udp` calls no handler or exactly
one; a handler that is called is that of the first command, in the order partbin,
donebin, retval, loadbin, maple, pmcr, sendbinq, sendbin, execute, version,
reboot, whose identifier equals the id read from the payload before the chain;
for an id other than 0 that first command's handler is indeed called, on the
memory left by the validation and `make_ether`; for the id 0 none is. -/
theorem dispatch_first_match {X : Type} (env : Env X) (s : Store X) (ether ip udp : Nat)
    (hv : (udp_validate env s ip udp).2 = true)
    (hd : rd8 s.pkt (udp + 8) ≠ env.DHCP_OP_BOOTREPLY) :
    ((process_udp env s ether ip udp).events = []
      ∨ ∃ c, (process_udp env s ether ip udp).events = [Event.cmd c])
    ∧ (∀ c, Event.cmd c ∈ (process_udp env s ether ip udp).events →
        first_match env (rd32 s.pkt (udp + 8)) = some c)
    ∧ (rd32 s.pkt (udp + 8) ≠ 0 → ∀ c, first_match env (rd32 s.pkt (udp + 8)) = some c →
        process_udp env s ether ip udp
          = ⟨env.handler c udp
              { (udp_validate env s ip udp).1 with
                pkt_buf := env.make_ether (udp_validate env s ip udp).1.pkt (ether + 6)
                  (ether + 0) (udp_validate env s ip udp).1.pkt_buf },
              [Event.cmd c], decide (c = Cmd.reboot)⟩)
    ∧ (rd32 s.pkt (udp + 8) = 0 → (process_udp env s ether ip udp).events = []) := by
  have e : process_udp env s ether ip udp
      = udp_dispatch env (udp_validate env s ip udp).1 ether udp := by
    simp only [process_udp, hv]
    rfl
  have hd1 : rd8 (udp_validate env s ip udp).1.pkt (udp + 8) ≠ env.DHCP_OP_BOOTREPLY := by
    rw [validate_pkt_rd8 _ _ _ _ _ (by omega)]
    exact hd
  have hid := validate_pkt_rd32 env s ip udp
  rw [e, udp_dispatch_cmd env _ ether udp hd1, hid]
  by_cases hz : rd32 s.pkt (udp + 8) = 0
  · rw [if_pos hz]
    refine ⟨Or.inl rfl, ?_, fun h => absurd hz h, fun _ => rfl⟩
    intro c hc
    simp [ret] at hc
  · rw [if_neg hz]
    cases hf : first_match env (rd32 s.pkt (udp + 8)) with
    | none =>
      refine ⟨Or.inl rfl, ?_, ?_, fun h => absurd h hz⟩
      · intro c hc
        simp [ret] at hc
      · intro _ c hc
        cases hc
    | some c0 =>
      refine ⟨Or.inr ⟨c0, rfl⟩, ?_, ?_, fun h => absurd h hz⟩
      · intro c hc
        simp only [List.mem_singleton, Event.cmd.injEq] at hc
        rw [hc]
      · intro _ c hc
        cases hc
        rfl

/-- With the identifiers of donebin, retval and version equal, the datagram
carrying that identifier calls the handler of donebin, the first of the three,
and no other. -/
theorem dispatch_first_match_witness :
    (udp_validate clashEnv versStore 14 34).2 = true
    ∧ rd8 versStore.pkt (34 + 8) ≠ clashEnv.DHCP_OP_BOOTREPLY
    ∧ clashEnv.CMD Cmd.donebin = rd32 versStore.pkt (34 + 8)
    ∧ clashEnv.CMD Cmd.retval = rd32 versStore.pkt (34 + 8)
    ∧ clashEnv.CMD Cmd.version = rd32 versStore.pkt (34 + 8)
    ∧ (process_udp clashEnv versStore 0 14 34).events = [Event.cmd Cmd.donebin] :=
  ⟨by decide, by decide, by decide, by decide, by decide,
    congrArg Out.events
      ((dispatch_first_match clashEnv versStore 0 14 34 (by decide) (by decide)).2.2.1
        (by decide) Cmd.donebin (by decide))⟩

/-! ## What a run without calls leaves in memory -/

theorem process_broadcast_quiet {X : Type} (s : Store X)
    (h : (process_broadcast s).events = []) : process_broadcast s = ret s := by
  by_cases hc : rd8 s.pkt 13 = 6 ∧ be16 s.pkt 14 = 1 ∧ be16 s.pkt 16 = 0x0800
      ∧ be16 s.pkt 20 = 1 ∧ s.our_ip.val ≠ 0 ∧ be32 s.pkt 38 = s.our_ip.val
  · obtain ⟨h13, hhw, hpr, hop, hip, ht⟩ := hc
    rw [(process_broadcast_answer s h13 hhw hpr hop hip ht).1] at h
    cases h
  · exact process_broadcast_silent s hc

theorem process_icmp_quiet {X : Type} (env : Env X) (s : Store X) (ether ip icmp : Nat)
    (h : (process_icmp env s ether ip icmp).events = []) :
    ((process_icmp env s ether ip icmp).st.pkt = s.pkt
      ∨ (rd8 s.pkt icmp = 8
          ∧ rd16 s.pkt (icmp + 2) ≠ rd16 (icmp_check env s.pkt ip icmp) (icmp + 2)
          ∧ (process_icmp env s ether ip icmp).st.pkt = icmp_check env s.pkt ip icmp))
    ∧ (process_icmp env s ether ip icmp).st.mac = s.mac
    ∧ (process_icmp env s ether ip icmp).st.our_ip = s.our_ip := by
  simp only [process_icmp, Nat.add_zero] at h ⊢
  by_cases h8 : rd8 s.pkt icmp = 8
  · rw [if_pos h8] at h ⊢
    by_cases hck : rd16 s.pkt (icmp + 2) = rd16 (icmp_check env s.pkt ip icmp) (icmp + 2)
    · rw [if_neg (by simpa using hck)] at h
      cases h
    · rw [if_pos (by simpa using hck)]
      exact ⟨Or.inr ⟨h8, hck, rfl⟩, rfl, rfl⟩
  · rw [if_neg h8]
    exact ⟨Or.inl rfl, rfl, rfl⟩

theorem udp_validate_store {X : Type} (env : Env X) (s : Store X) (ip udp : Nat) :
    (udp_validate env s ip udp).1.pkt
        = (if rd16 s.pkt (udp + 6) = 0xffff then wr16 s.pkt (udp + 6) 0 else s.pkt)
    ∧ (udp_validate env s ip udp).1.mac = s.mac
    ∧ (udp_validate env s ip udp).1.our_ip = s.our_ip :=
  ⟨rfl, rfl, rfl⟩

theorem udp_dispatch_quiet {X : Type} (env : Env X) (s1 : Store X) (ether udp : Nat)
    (h : (udp_dispatch env s1 ether udp).events = []) :
    (udp_dispatch env s1 ether udp).st.pkt = s1.pkt
    ∧ (udp_dispatch env s1 ether udp).st.mac = s1.mac
    ∧ (udp_dispatch env s1 ether udp).st.our_ip = s1.our_ip := by
  by_cases hd : rd8 s1.pkt (udp + 8) = env.DHCP_OP_BOOTREPLY
  · simp only [udp_dispatch, if_pos hd] at h
    split at h <;> cases h
  · rw [udp_dispatch_cmd env s1 ether udp hd] at h ⊢
    split at h
    · cases h
    · exact ⟨rfl, rfl, rfl⟩

theorem process_udp_quiet {X : Type} (env : Env X) (s : Store X) (ether ip udp : Nat)
    (h : (process_udp env s ether ip udp).events = []) :
    (process_udp env s ether ip udp).st.pkt
        = (if rd16 s.pkt (udp + 6) = 0xffff then wr16 s.pkt (udp + 6) 0 else s.pkt)
    ∧ (process_udp env s ether ip udp).st.mac = s.mac
    ∧ (process_udp env s ether ip udp).st.our_ip = s.our_ip := by
  obtain ⟨v0, v1, v2⟩ := udp_validate_store env s ip udp
  simp only [process_udp] at h ⊢
  split at h
  · rename_i hv
    rw [if_pos hv]
    exact ⟨v0, v1, v2⟩
  · rename_i hv
    rw [if_neg hv]
    obtain ⟨d0, d1, d2⟩ := udp_dispatch_quiet env _ ether udp h
    exact ⟨d0.trans v0, d1.trans v1, d2.trans v2⟩

theorem process_mine_checked_quiet {X : Type} (env : Env X) (s : Store X)
    (h : (process_mine_checked env s).events = []) :
    ((process_mine_checked env s).st.pkt = s.pkt
      ∨ (rd16 s.pkt 24 ≠ rd16 (ip_check env s.pkt 14) 24
          ∧ (process_mine_checked env s).st.pkt = ip_check env s.pkt 14)
      ∨ (rd8 s.pkt 23 = IP_ICMP_PROTOCOL ∧ rd8 s.pkt (14 + 4 * ihl s.pkt) = 8
          ∧ rd16 s.pkt (14 + 4 * ihl s.pkt + 2)
              ≠ rd16 (icmp_check env s.pkt 14 (14 + 4 * ihl s.pkt)) (14 + 4 * ihl s.pkt + 2)
          ∧ (process_mine_checked env s).st.pkt = icmp_check env s.pkt 14 (14 + 4 * ihl s.pkt))
      ∨ (rd8 s.pkt 23 = IP_UDP_PROTOCOL ∧ rd16 s.pkt (14 + 4 * ihl s.pkt + 6) = 0xffff
          ∧ (process_mine_checked env s).st.pkt = wr16 s.pkt (14 + 4 * ihl s.pkt + 6) 0))
    ∧ (process_mine_checked env s).st.mac = s.mac
    ∧ (process_mine_checked env s).st.our_ip = s.our_ip := by
  simp only [process_mine_checked, ETHER_H_LEN, Nat.reduceAdd, Nat.add_zero, and_15] at h ⊢
  by_cases hck : rd16 s.pkt 24 = rd16 (ip_check env s.pkt 14) 24
  · rw [if_neg (by simpa using hck)] at h ⊢
    rw [ip_check_restore env s.pkt 14 hck] at h ⊢
    by_cases hu : rd8 s.pkt 23 = IP_UDP_PROTOCOL
    · rw [if_pos hu] at h ⊢
      obtain ⟨u0, u1, u2⟩ := process_udp_quiet env _ 0 14 (14 + 4 * (rd8 s.pkt 14 % 16)) h
      refine ⟨?_, u1, u2⟩
      rw [u0]
      by_cases hf : rd16 s.pkt (14 + 4 * (rd8 s.pkt 14 % 16) + 6) = 0xffff
      · rw [if_pos hf]
        exact Or.inr (Or.inr (Or.inr ⟨hu, hf, rfl⟩))
      · rw [if_neg hf]
        exact Or.inl rfl
    · rw [if_neg hu] at h ⊢
      by_cases hi : rd8 s.pkt 23 = IP_ICMP_PROTOCOL
      · rw [if_pos hi] at h ⊢
        obtain ⟨i0, i1, i2⟩ := process_icmp_quiet env _ 0 14 (14 + 4 * (rd8 s.pkt 14 % 16)) h
        refine ⟨?_, i1, i2⟩
        rcases i0 with i0 | ⟨i8, ick, i0⟩
        · exact Or.inl i0
        · exact Or.inr (Or.inr (Or.inl ⟨hi, i8, ick, i0⟩))
      · rw [if_neg hi]
        exact ⟨Or.inl rfl, rfl, rfl⟩
  · rw [if_pos (by simpa using hck)]
    exact ⟨Or.inr (Or.inl ⟨hck, rfl⟩), rfl, rfl⟩

theorem ip_check_rd8 {X : Type} (env : Env X) (pkt : Mem) (i : Nat) (h0 : i ≠ 24) (h1 : i ≠ 25) :
    rd8 (ip_check env pkt 14) i = rd8 pkt i := by
  simp only [ip_check, rd8_wr16, Nat.reduceAdd]
  rw [if_neg h0, if_neg h1, if_neg h0, if_neg h1]

theorem icmp_check_rd8 {X : Type} (env : Env X) (pkt : Mem) (icmp i : Nat)
    (h0 : i ≠ icmp + 2) (h1 : i ≠ icmp + 3) :
    rd8 (icmp_check env pkt 14 icmp) i = rd8 pkt i := by
  simp only [icmp_check, rd8_wr16]
  rw [if_neg h0, if_neg (by omega), if_neg h0, if_neg (by omega)]

/-- C16. On every frame on which `process_pkt` makes no call (no transmission, no
handler, no DHCP hook), the receive buffer afterwards is the buffer before, or
the buffer with the recomputed header checksum stored (on a header-checksum
mismatch), or the buffer with the recomputed ICMP checksum stored (on a checksum
mismatch of an echo request), or the buffer with the UDP checksum 0xFFFF replaced
by 0.  So it differs from the buffer before in at most the two bytes of one of
these three fields, and the device MAC and the device IP are as before. -/
theorem quiet_run_frame {X : Type} (env : Env X) (s : Store X)
    (h : (process_pkt env s).events = []) :
    ((process_pkt env s).st.pkt = s.pkt
      ∨ (rd16 s.pkt 24 ≠ rd16 (ip_check env s.pkt 14) 24
          ∧ (process_pkt env s).st.pkt = ip_check env s.pkt 14)
      ∨ (rd8 s.pkt 23 = IP_ICMP_PROTOCOL ∧ rd8 s.pkt (14 + 4 * ihl s.pkt) = 8
          ∧ rd16 s.pkt (14 + 4 * ihl s.pkt + 2)
              ≠ rd16 (icmp_check env s.pkt 14 (14 + 4 * ihl s.pkt)) (14 + 4 * ihl s.pkt + 2)
          ∧ (process_pkt env s).st.pkt = icmp_check env s.pkt 14 (14 + 4 * ihl s.pkt))
      ∨ (rd8 s.pkt 23 = IP_UDP_PROTOCOL ∧ rd16 s.pkt (14 + 4 * ihl s.pkt + 6) = 0xffff
          ∧ (process_pkt env s).st.pkt = wr16 s.pkt (14 + 4 * ihl s.pkt + 6) 0))
    ∧ (∀ i, i ≠ 24 → i ≠ 25 → i ≠ 14 + 4 * ihl s.pkt + 2 → i ≠ 14 + 4 * ihl s.pkt + 3 →
        i ≠ 14 + 4 * ihl s.pkt + 6 → i ≠ 14 + 4 * ihl s.pkt + 7 →
        rd8 (process_pkt env s).st.pkt i = rd8 s.pkt i)
    ∧ (process_pkt env s).st.mac = s.mac
    ∧ (process_pkt env s).st.our_ip = s.our_ip := by
  have key : ((process_pkt env s).st.pkt = s.pkt
      ∨ (rd16 s.pkt 24 ≠ rd16 (ip_check env s.pkt 14) 24
          ∧ (process_pkt env s).st.pkt = ip_check env s.pkt 14)
      ∨ (rd8 s.pkt 23 = IP_ICMP_PROTOCOL ∧ rd8 s.pkt (14 + 4 * ihl s.pkt) = 8
          ∧ rd16 s.pkt (14 + 4 * ihl s.pkt + 2)
              ≠ rd16 (icmp_check env s.pkt 14 (14 + 4 * ihl s.pkt)) (14 + 4 * ihl s.pkt + 2)
          ∧ (process_pkt env s).st.pkt = icmp_check env s.pkt 14 (14 + 4 * ihl s.pkt))
      ∨ (rd8 s.pkt 23 = IP_UDP_PROTOCOL ∧ rd16 s.pkt (14 + 4 * ihl s.pkt + 6) = 0xffff
          ∧ (process_pkt env s).st.pkt = wr16 s.pkt (14 + 4 * ihl s.pkt + 6) 0))
    ∧ (process_pkt env s).st.mac = s.mac
    ∧ (process_pkt env s).st.our_ip = s.our_ip := by
    simp only [process_pkt, memcmp_mac, Nat.zero_add] at h ⊢
    split
    · exact ⟨Or.inl rfl, rfl, rfl⟩
    · rename_i h8
      rw [if_neg h8] at h
      split
      · rename_i hm
        rw [if_pos hm, process_mine_eq] at h
        rw [process_mine_eq]
        split
        · exact ⟨Or.inl rfl, rfl, rfl⟩
        · rename_i hp
          rw [if_neg hp] at h
          exact process_mine_checked_quiet env s h
      · rename_i hm
        rw [if_neg hm] at h
        split
        · rename_i hb
          rw [if_pos hb] at h
          rw [process_broadcast_quiet s h]
          exact ⟨Or.inl rfl, rfl, rfl⟩
        · exact ⟨Or.inl rfl, rfl, rfl⟩
  obtain ⟨hp, hmac, hip⟩ := key
  refine ⟨hp, ?_, hmac, hip⟩
  intro i h24 h25 h2 h3 h6 h7
  rcases hp with e | ⟨_, e⟩ | ⟨_, _, _, e⟩ | ⟨_, _, e⟩
  · rw [e]
  · rw [e, ip_check_rd8 env s.pkt i h24 h25]
  · rw [e, icmp_check_rd8 env s.pkt _ i h2 h3]
  · rw [e, rd8_wr16, if_neg h6, if_neg h7]

/-- The echo request with a wrong ICMP checksum causes no call; the receive buffer
afterwards holds the recomputed ICMP checksum and is otherwise as before. -/
theorem quiet_run_frame_witness :
    (process_pkt (sampleEnv true) echoBadStore).events = []
    ∧ rd16 echoBadStore.pkt 36 ≠ rd16 (process_pkt (sampleEnv true) echoBadStore).st.pkt 36
    ∧ rd8 (process_pkt (sampleEnv true) echoBadStore).st.pkt 38 = rd8 echoBadStore.pkt 38
    ∧ (process_pkt (sampleEnv true) echoBadStore).st.mac = echoBadStore.mac
    ∧ (process_pkt (sampleEnv true) echoBadStore).st.our_ip = echoBadStore.our_ip :=
  ⟨by decide, by decide,
    (quiet_run_frame (sampleEnv true) echoBadStore (by decide)).2.1 38
      (by decide) (by decide) (by decide) (by decide) (by decide) (by decide),
    (quiet_run_frame (sampleEnv true) echoBadStore (by decide)).2.2.1,
    (quiet_run_frame (sampleEnv true) echoBadStore (by decide)).2.2.2⟩

/-! ## The header checksum of the echo reply -/

theorem oc_add_norm (t w : Nat) (hw : w < 65536) : oc_add (oc_norm t) w = oc_norm (t + w) := by
  unfold oc_add oc_norm
  split_ifs <;> omega

theorem oc_sum_norm (m : Mem) (n : Nat) : ∀ (a t : Nat),
    oc_sum m a n (oc_norm t) = oc_norm (t + wsum m a n) := by
  induction n with
  | zero => intro a t; rfl
  | succ n ih =>
    intro a t
    simp only [oc_sum, wsum]
    rw [oc_add_norm t _ (rd16_lt m a), ih, Nat.add_assoc]

/-- The checksum over whole words is a function of the plain sum of the words. -/
theorem checksum_wsum (m : Mem) (a : Nat) (count : Int) :
    checksum m a count 0 = 65535 - oc_norm (wsum m a count.toNat) := by
  have h := oc_sum_norm m count.toNat a 0
  simp only [oc_norm, if_true, Nat.zero_add] at h
  simp only [checksum, ne_eq, not_true_eq_false, if_false, oc_norm]
  rw [h]

theorem wsum_add (m : Mem) (j : Nat) : ∀ (a k : Nat),
    wsum m a (j + k) = wsum m a j + wsum m (a + 2 * j) k := by
  induction j with
  | zero => intro a k; simp [wsum]
  | succ j ih =>
    intro a k
    have e : j + 1 + k = (j + k) + 1 := by omega
    rw [e]
    simp only [wsum]
    have e2 : a + 2 + 2 * j = a + 2 * (j + 1) := by omega
    rw [ih (a + 2) k, e2, Nat.add_assoc]

theorem wsum_congr (m m' : Mem) (n : Nat) : ∀ (a : Nat),
    (∀ i, a ≤ i → i < a + 2 * n → rd8 m i = rd8 m' i) → wsum m a n = wsum m' a n := by
  induction n with
  | zero => intro a _; rfl
  | succ n ih =>
    intro a h
    simp only [wsum]
    have e : rd16 m a = rd16 m' a := by
      unfold rd16
      rw [h a (by omega) (by omega), h (a + 1) (by omega) (by omega)]
    rw [e, ih (a + 2) (fun i h1 h2 => h i (by omega) (by omega))]

theorem header_swap_sum (A B : Mem)
    (h : ∀ i, 14 ≤ i → i < 34 → rd8 B i
      = if 26 ≤ i ∧ i < 30 then rd8 A (i + 4) else if 30 ≤ i ∧ i < 34 then rd8 A (i - 4)
        else rd8 A i) :
    wsum B 14 10 = wsum A 14 10 := by
  simp only [wsum, rd16, Nat.reduceAdd]
  simp (disch := omega) only [h]
  simp
  omega

/-- With the checksum routine of the spec and a header of at least five words,
the header checksum that `icmp_reply` stores is the one that the verification
step of `process_mine` computes for the request: exchanging the two addresses
leaves the sum of the header words unchanged. -/
theorem icmp_reply_header_checksum {X : Type} (env : Env X) (hspec : env.checksum = checksum)
    (pkt : Mem) (n : Nat) (hn : 5 ≤ n) (hv : rd8 pkt 14 % 16 = n) :
    rd16 (icmp_reply env pkt 0 14 (14 + 4 * n)) 24 = rd16 (ip_check env pkt 14) 24 := by
  unfold ip_check
  unfold icmp_reply
  lift_lets
  intro pkt3 tmp pkt4 pkt5 i2 pkt6 pkt7 pkt8 pkt9 pkt10 A
  have h8 : rd8 pkt8 14 = rd8 pkt 14 := by
    simp only [pkt8, pkt7, pkt6, i2, pkt5, pkt4, tmp, pkt3, rd8_wr16, rd8_wr8, rd8_memcpy_16bit]
    repeat (first | rfl | rw [if_neg (by omega)])
  have hA : rd8 A 14 = rd8 pkt 14 := by
    simp only [A, rd8_wr16]
    rfl
  rw [rd16_wr16_other _ _ _ _ (by omega)]
  have h10 : rd16 pkt10 24 = rd16 pkt9 24 := rd16_wr16_other _ _ _ _ (by omega)
  rw [h10]
  simp only [Nat.reduceAdd, Nat.add_zero]
  have h9 : rd16 pkt9 24 = env.checksum pkt8 14 (2 * ((rd8 pkt8 14 &&& 15 : Nat) : Int)) 0 % 65536 :=
    rd16_wr16_same _ _ _
  rw [h9, rd16_wr16_same, hspec, and_15, and_15, h8, hA, hv, checksum_wsum, checksum_wsum]
  have hc : (2 * (n : Int)).toNat = 10 + (2 * n - 10) := by omega
  rw [hc, wsum_add, wsum_add]
  have hfirst : wsum pkt8 14 10 = wsum A 14 10 := by
    apply header_swap_sum
    intro i h1 h2
    simp only [A, pkt8, pkt7, pkt6, i2, pkt5, pkt4, tmp, pkt3, rd8_wr16, rd8_wr8, rd8_memcpy_16bit,
      rd8_zeroMem]
    have hcases : i = 24 ∨ i = 25 ∨ (26 ≤ i ∧ i < 30) ∨ (30 ≤ i ∧ i < 34) ∨ i < 24 := by omega
    rcases hcases with h | h | h | h | h
    · repeat (first | rfl | rw [if_neg (by omega)] | rw [if_pos (by omega)])
    · repeat (first | rfl | rw [if_neg (by omega)] | rw [if_pos (by omega)])
    · repeat (first | rw [if_neg (by omega)] | rw [if_pos (by omega)])
      congr 1
      omega
    · repeat (first | rw [if_neg (by omega)] | rw [if_pos (by omega)])
      congr 1
      omega
    · repeat (first | rfl | rw [if_neg (by omega)])
  have hrest : wsum pkt8 (14 + 2 * 10) (2 * n - 10) = wsum A (14 + 2 * 10) (2 * n - 10) := by
    apply wsum_congr
    intro i h1 h2
    simp only [A, pkt8, pkt7, pkt6, i2, pkt5, pkt4, tmp, pkt3, rd8_wr16, rd8_wr8, rd8_memcpy_16bit]
    repeat (first | rfl | rw [if_neg (by omega)])
  rw [hfirst, hrest]

/-- C15, as amended.  With the checksum routine of the spec, for every echo
request with a header of at least five words that `process_icmp` answers, the
IPv4 header checksum stored in the reply equals the header checksum of the
request: the request's stored value was verified equal to the recomputed one, and
exchanging the source and the destination address leaves the one's-complement sum
of the header words unchanged. -/
theorem reply_header_checksum {X : Type} (env : Env X) (hspec : env.checksum = checksum)
    (s : Store X)
    (hdst : mac_eq s.pkt 0 s.mac) (htype : be16 s.pkt 12 = 0x0800)
    (hfrag : be16 s.pkt 20 % 2 ^ 14 = 0)
    (hck : rd16 s.pkt 24 = rd16 (ip_check env s.pkt 14) 24)
    (hproto : rd8 s.pkt 23 = IP_ICMP_PROTOCOL)
    (hi : 5 ≤ ihl s.pkt)
    (hans : (process_pkt env s).events ≠ []) :
    rd16 (process_pkt env s).st.pkt 24 = rd16 s.pkt 24 := by
  rw [process_pkt_icmp env s hdst htype hfrag hck hproto] at hans ⊢
  simp only [process_icmp, Nat.add_zero] at hans ⊢
  by_cases h8 : rd8 s.pkt (14 + 4 * ihl s.pkt) = 8
  · rw [if_pos h8] at hans ⊢
    by_cases hchk : rd16 s.pkt (14 + 4 * ihl s.pkt + 2)
        = rd16 (icmp_check env s.pkt 14 (14 + 4 * ihl s.pkt)) (14 + 4 * ihl s.pkt + 2)
    · have hrestore : icmp_check env s.pkt 14 (14 + 4 * ihl s.pkt) = s.pkt := by
        unfold icmp_check at hchk ⊢
        exact wr16_restore_of_eq _ _ _ hchk
      rw [if_neg (by simpa using hchk), hrestore]
      show rd16 (icmp_reply env s.pkt 0 14 (14 + 4 * ihl s.pkt)) 24 = rd16 s.pkt 24
      rw [icmp_reply_header_checksum env hspec s.pkt (ihl s.pkt) hi rfl, ← hck]
    · rw [if_pos (by simpa using hchk)] at hans
      exact absurd rfl hans
  · rw [if_neg h8] at hans
    exact absurd rfl hans

/-- The even-length sample request is answered, and the reply carries the header
checksum of the request. -/
theorem reply_header_checksum_witness :
    mac_eq echoEvenStore.pkt 0 echoEvenStore.mac
    ∧ be16 echoEvenStore.pkt 12 = 0x0800
    ∧ be16 echoEvenStore.pkt 20 % 2 ^ 14 = 0
    ∧ rd16 echoEvenStore.pkt 24 = rd16 (ip_check (sampleEnv true) echoEvenStore.pkt 14) 24
    ∧ rd8 echoEvenStore.pkt 23 = IP_ICMP_PROTOCOL
    ∧ 5 ≤ ihl echoEvenStore.pkt
    ∧ (process_pkt (sampleEnv true) echoEvenStore).events ≠ []
    ∧ rd16 (process_pkt (sampleEnv true) echoEvenStore).st.pkt 24 = rd16 echoEvenStore.pkt 24 :=
  ⟨by decide, by decide, by decide, by decide, by decide, by decide, by decide,
    reply_header_checksum (sampleEnv true) rfl echoEvenStore (by decide) (by decide) (by decide)
      (by decide) (by decide) (by decide) (by decide)⟩

/-- C15 as stated fails: the frame `echoShortHeader`, whose header is four words
long, passes the header-checksum verification and the ICMP verification and is
answered by `process_icmp`, and the header checksum stored in the reply is not
the header checksum of the request (the destination address lies outside the four
header words that the checksum covers). -/
theorem reply_header_checksum_short_header :
    mac_eq echoShortHeaderStore.pkt 0 echoShortHeaderStore.mac
    ∧ be16 echoShortHeaderStore.pkt 12 = 0x0800
    ∧ be16 echoShortHeaderStore.pkt 20 % 2 ^ 14 = 0
    ∧ rd16 echoShortHeaderStore.pkt 24
        = rd16 (ip_check (sampleEnv true) echoShortHeaderStore.pkt 14) 24
    ∧ rd8 echoShortHeaderStore.pkt 23 = IP_ICMP_PROTOCOL
    ∧ ihl echoShortHeaderStore.pkt = 4
    ∧ (process_pkt (sampleEnv true) echoShortHeaderStore).events
        = [Event.tx (frame (process_pkt (sampleEnv true) echoShortHeaderStore).st.pkt 42)]
    ∧ rd16 (process_pkt (sampleEnv true) echoShortHeaderStore).st.pkt 24
        ≠ rd16 echoShortHeaderStore.pkt 24 := by
  decide

/-! ## The device identity -/

/-- The functions `process_broadcast` and `process_icmp`, which make no call
other than `bb->tx`, leave the device MAC and the device IP as they were, also
when they transmit. -/
theorem responders_keep_identity {X : Type} (env : Env X) (s : Store X) (ether ip icmp : Nat) :
    (process_broadcast s).st.mac = s.mac ∧ (process_broadcast s).st.our_ip = s.our_ip
    ∧ (process_icmp env s ether ip icmp).st.mac = s.mac
    ∧ (process_icmp env s ether ip icmp).st.our_ip = s.our_ip := by
  refine ⟨?_, ?_, ?_, ?_⟩
  · simp only [process_broadcast]
    split_ifs <;> rfl
  · simp only [process_broadcast]
    split_ifs <;> rfl
  · simp only [process_icmp]
    split_ifs <;> rfl
  · simp only [process_icmp]
    split_ifs <;> rfl

/-! ## The bytes that the UDP checksum reads -/

/-- With the word count and the odd-byte flag that `process_udp` passes, the
checksum routine of the spec reads, besides the pseudo header, the `U - 8` bytes
of the payload and nothing after them: two buffers that agree on these bytes give
the same checksum. -/
theorem checksum_udp_payload (pseudo data data' : Mem) (d U : Nat) (h8 : 8 ≤ U)
    (h : ∀ i, d ≤ i → i < d + (U - 8) → rd8 data i = rd8 data' i) :
    checksum_udp pseudo data d (udp_count U) (U % 2)
      = checksum_udp pseudo data' d (udp_count U) (U % 2) := by
  have hc : (udp_count U).toNat = (U - 8) / 2 := by
    unfold udp_count
    rw [Int.tdiv_eq_ediv (by omega) (by decide)]
    omega
  simp only [checksum_udp, hc]
  rw [oc_sum_congr data data' _ d _ (fun i h1 h2 => h i h1 (by omega))]
  by_cases ho : U % 2 = 0
  · simp [ho]
  · rw [if_pos ho, if_pos ho, h (d + 2 * ((U - 8) / 2)) (by omega) (by omega)]

end Dcload
